import Mathlib

/-!
Verification development for the humble-clay batch LLM pipeline.

Shallow embedding of the core pipeline:
- `src/src/api/field_extraction.py` (`extract_field`,
  `validate_field_extraction_request`)
- `src/src/api/response/handlers.py` (`format_response_data`,
  `extract_requested_field`, `prepare_prompt_response`)
- `src/api/schema/dynamic.py` (`create_dynamic_model_from_schema`)
- `src/api/batch/processor.py` (`prepare_prompt_request`, `process_batch`,
  `process_multiple_prompts`)
- `src/api/models.py` (`PromptRequest`, `PromptResponse`)

JSON-compatible Python values are modelled by the inductive `Json` (floats as
exact rationals: the code never performs float arithmetic, it only tests
`float.is_integer()` and converts whole floats with `int(...)`, both exact on
the rational value of the float).  The external LLM call
(`process_with_llm`) and the possibility of `prepare_prompt_request` raising
are modelled as function parameters returning `Except` (`.error` = the call
raised, carrying `str(e)`).  `asyncio.gather` is modelled by an explicit
completion log: each window takes a completion order (a permutation of the
dispatched task indices) and reassembles results from it, so that claims can
quantify over every completion order.  Wall-clock `time.time()` is modelled
by a `Nat` counter incremented at every call.
-/

namespace HumbleClay

/-- JSON-compatible Python value (the union accepted by `PromptResponse.response`
in `src/api/models.py`).  Python floats are carried as exact rationals. -/
inductive Json where
  | null
  | str (s : String)
  | int (n : Int)
  | float (q : Rat)
  | bool (b : Bool)
  | obj (fields : List (String × Json))
  | arr (items : List Json)

/-- Python `isinstance(v, dict)`. -/
def Json.isDict : Json → Bool
  | .obj _ => true
  | _ => false

/-- Python `isinstance(v, (dict, list))`. -/
def Json.isStructured : Json → Bool
  | .obj _ => true
  | .arr _ => true
  | _ => false

/-- Python `bool(v)` truthiness of a JSON-compatible value. -/
def Json.truthy : Json → Bool
  | .null => false
  | .str s => !s.isEmpty
  | .int n => n != 0
  | .float q => q != 0
  | .bool b => b
  | .obj fields => !fields.isEmpty
  | .arr items => !items.isEmpty

/-- `type(v).__name__` for the modelled Python values. -/
def Json.pyTypeName : Json → String
  | .null => "NoneType"
  | .str _ => "str"
  | .int _ => "int"
  | .float _ => "float"
  | .bool _ => "bool"
  | .obj _ => "dict"
  | .arr _ => "list"

/-- First-match key lookup in a dict modelled as an association list
(Python dict keys are unique, so first match is the dict lookup). -/
def lookupKey (fields : List (String × Json)) (k : String) : Option Json :=
  (fields.find? (fun p => p.1 == k)).map (fun p => p.2)

/-- Python `d.get(k)` (`None` if absent).  Non-dict receivers raise in Python
and are outside the modelled domain (they return `none` here). -/
def jsonGet : Json → String → Option Json
  | .obj fields, k => lookupKey fields k
  | _, _ => none

/-- Python `k in d` for a dict.  (In Python, `in` on a list tests membership
and on a string tests substring; those receivers are never dicts built by this
pipeline and are outside the modelled domain.) -/
def jsonHasKey (j : Json) (k : String) : Bool :=
  match j with
  | .obj fields => (lookupKey fields k).isSome
  | _ => false

/-- Python `str.split(sep)` for a one-character separator, over the character
list: `"".split(".") = [""]`, `"a..b".split(".") = ["a", "", "b"]`. -/
def pySplitChars (sep : Char) : List Char → List (List Char)
  | [] => [[]]
  | a :: rest =>
    match pySplitChars sep rest with
    | [] => [[a]]
    | h :: t => if a = sep then [] :: h :: t else (a :: h) :: t

/-- Python `s.split(sep)` for a one-character separator. -/
def pySplit (sep : Char) (s : String) : List String :=
  (pySplitChars sep s.toList).map (fun cs => String.mk cs)

/-- Python truthiness of an `Optional[str]`: `None` and `""` are falsy. -/
def strOptTruthy : Option String → Bool
  | none => false
  | some s => !s.isEmpty

/-! ## Field Extractor (`src/src/api/field_extraction.py`) -/

/-- The `for i, part in enumerate(parts)` walk of `extract_field`
(`field_extraction.py` lines 41-46): descend mapping-key by mapping-key;
on the first unresolvable segment raise `ValueError` naming
`".".flatten(parts[: i + 1])`, the exact failing path prefix.  `done` carries
the segments already resolved (`parts[:i]`). -/
def walkParts : Json → List String → List String → Except String Json
  | current, _, [] => .ok current
  | current, done, part :: rest =>
    match current with
    | .obj fields =>
      match lookupKey fields part with
      | some v => walkParts v (done ++ [part]) rest
      | none => .error ("Field not found: " ++ String.intercalate "." (done ++ [part]))
    | _ => .error ("Field not found: " ++ String.intercalate "." (done ++ [part]))

/-- `extract_field(data, field_path)` — dot-path extraction.  `.error` models
the raised `ValueError` (carrying `str(e)`).  The Python test
`"." not in field_path` is rendered as `(pySplit '.' field_path).length == 1`
(a string contains no separator iff splitting yields one part). -/
def extract_field (data : Json) (field_path : String) : Except String Json :=
  if !data.isStructured && !field_path.isEmpty then
    .error ("Cannot extract fields from non-structured data type: <class '"
      ++ data.pyTypeName ++ "'>")
  else if field_path.isEmpty || (pySplit '.' field_path).any (fun part => part.isEmpty) then
    .error "Invalid field path format"
  else if (pySplit '.' field_path).length == 1 then
    match data with
    | .obj fields =>
      match lookupKey fields field_path with
      | some v => .ok v
      | none => .error ("Field not found: " ++ field_path)
    | _ => .error ("Field not found: " ++ field_path)
  else
    walkParts data [] (pySplit '.' field_path)

/-- `validate_field_extraction_request(data, field_path, has_schema)`.
The `field_path` argument is unused, as in the source. -/
def validate_field_extraction_request (data : Json) (field_path : String)
    (has_schema : Bool) : Except String Unit :=
  if !has_schema then
    .error "Field extraction requires a schema"
  else if !data.isStructured then
    .error ("Cannot extract fields from non-structured data: " ++ data.pyTypeName)
  else
    .ok ()

/-! ## Data model (`src/api/models.py`) -/

/-- `PromptRequest`: `response_format` is an optional dict (association list),
`extract_field_path` an optional dot-path. -/
structure PromptRequest where
  prompt : String
  response_format : Option (List (String × Json))
  extract_field_path : Option String

/-- `PromptResponse` (the Outcome record): `status` defaults to `"success"`,
`response` to `None` (`Json.null` — Python `None` and JSON null coincide),
`error` to `None`. -/
structure PromptResponse where
  status : String
  response : Json
  error : Option String

/-! ## Dynamic Schema Builder (`src/api/schema/dynamic.py`) -/

/-- Field kind of the dynamically built pydantic model: the type assigned to
one schema property by `create_dynamic_model_from_schema`. -/
inductive FieldKind where
  | enumStr (choices : List Json)
  | plainStr
  | int
  | float
  | bool
  | arrayAny
  | objectAny
  | anyType

/-- The `validate_int` conversion declared for `"integer"` fields
(`dynamic.py` lines 48-53): a float that `is_integer()` is converted exactly
with `int(v)`; anything else is returned unchanged.  On the rational value of
a float, `is_integer()` is `q.den = 1` and `int(v)` is `q.num`. -/
def validate_int : Json → Json
  | .float q => if q.den = 1 then .int q.num else .float q
  | v => v

/-- Acceptance of a raw value by an `"integer"`-declared field: after the
`validate_int` conversion the value must be an integer (pydantic's lax `int`
validation implements the same rule: a whole-number float is accepted exactly,
everything else non-integer is rejected). -/
def intFieldAccepts (v : Json) : Option Int :=
  match validate_int v with
  | .int n => some n
  | _ => none

/-- The per-property `if field_type == ...` chain of
`create_dynamic_model_from_schema` (`dynamic.py` lines 31-78).  `field_type`
is `field_schema.get("type")`; only a string tag can equal any of the
compared literals. -/
def fieldKindOfSchema (field_schema : Json) : FieldKind :=
  match jsonGet field_schema "type" with
  | some (.str t) =>
    if t == "string" then
      if jsonHasKey field_schema "enum" then
        .enumStr (match jsonGet field_schema "enum" with
          | some (.arr vs) => vs
          | _ => [])
      else .plainStr
    else if t == "integer" then .int
    else if t == "number" then .float
    else if t == "boolean" then .bool
    else if t == "array" then .arrayAny
    else if t == "object" then .objectAny
    else .anyType
  | _ => .anyType

/-- The built response shape: name plus ordered field descriptors. -/
structure DynModel where
  name : String
  fields : List (String × FieldKind)

/-- `create_dynamic_model_from_schema(schema_name, schema_obj)`:
`schema_obj.get("properties", {})` then one field per property.
(A non-dict `properties` raises in Python on `.items()` and is outside the
modelled domain: it yields no fields here.) -/
def create_dynamic_model_from_schema (schema_name : String) (schema_obj : Json) : DynModel :=
  let properties := (jsonGet schema_obj "properties").getD (.obj [])
  let model_fields :=
    match properties with
    | .obj fs => fs.map (fun p => (p.1, fieldKindOfSchema p.2))
    | _ => []
  ⟨schema_name, model_fields⟩

/-! ## Response Preparer (`src/src/api/response/handlers.py`) -/

/-- Raw output of the LLM call: either a pydantic model instance built from
the dynamic shape (carrying its `model_dump()` fields) or a plain value
(string, dict, ...). -/
inductive RawOutput where
  | typed (dump : List (String × Json))
  | plain (v : Json)

/-- `format_response_data(response_data)`: a pydantic model is
`model_dump()`-ed to a dict; a dict passes through; anything else is kept
as-is. -/
def format_response_data : RawOutput → Json
  | .typed dump => .obj dump
  | .plain v => v

/-- `extract_requested_field(response_dict, extract_field_path, has_schema)`:
no (truthy) path → return the dict unchanged; otherwise validate the
extraction request, then extract. -/
def extract_requested_field (response_dict : Json) (extract_field_path : Option String)
    (has_schema : Bool) : Except String Json :=
  if !strOptTruthy extract_field_path then
    .ok response_dict
  else
    match validate_field_extraction_request response_dict
        (extract_field_path.getD "") has_schema with
    | .error e => .error e
    | .ok _ => extract_field response_dict (extract_field_path.getD "")

/-- `prepare_prompt_response(response_data, extract_field_path, has_schema)`
(`handlers.py` lines 59-99).  Note the wrap test is
`not isinstance(formatted_response, dict)`: every non-dict value (sequences
included) is wrapped as `{"result": value}` when extraction is requested. -/
def prepare_prompt_response (response_data : RawOutput)
    (extract_field_path : Option String) (has_schema : Bool) : PromptResponse :=
  let formatted_response := format_response_data response_data
  if !formatted_response.isDict && !strOptTruthy extract_field_path then
    ⟨"success", formatted_response, none⟩
  else
    let formatted_response :=
      if !formatted_response.isDict && strOptTruthy extract_field_path then
        Json.obj [("result", formatted_response)]
      else formatted_response
    if strOptTruthy extract_field_path then
      match extract_requested_field formatted_response extract_field_path has_schema with
      | .ok extracted_value => ⟨"success", extracted_value, none⟩
      | .error e => ⟨"error", .null, some e⟩
    else
      ⟨"success", formatted_response, none⟩

/-! ## Batch Orchestrator (`src/api/batch/processor.py`)

The LLM transport call `process_with_llm(llm_client, prompt, response_model)`
is an external collaborator: it is a parameter
`llm : String → Option DynModel → Except String RawOutput`
(`.error e` = the call raised, with `str(e) = e`).  The preparation step is a
parameter `prepare` of the same shape as `prepare_prompt_request` but allowed
to fail, modelling the `try/except` around it in phase 1 (any Python callable
may raise); the concrete `prepare_prompt_request` below never does.
Logging-only arguments (`batch_number`, `total_batches`, `batch_start_time`,
`total_prompts`, `failed`) feed only the observability side channel and are
omitted. -/

/-- Result of one LLM call: raised (`.error str(e)`) or returned. -/
abbrev LlmResult := Except String RawOutput

/-- The LLM Caller boundary. -/
abbrev Llm := String → Option DynModel → LlmResult

/-- The (fallible) preparation boundary:
prompt text, optional response model, `has_schema`. -/
abbrev Prep := PromptRequest → Except String (String × Option DynModel × Bool)

/-- `prepare_prompt_request(prompt_request)` (`processor.py` lines 34-67).
`has_schema` is set by `response_format and response_format.get("type") ==
"json_schema"` alone; the model is built only when the nested `json_schema`
object is truthy and has a `"schema"` key.  (`json_schema.get("name",
"DynamicSchema")` with a non-string name, and non-dict `json_schema` values
on which Python `in`/subscript raise, are outside the modelled domain.) -/
def prepare_prompt_request (prompt_request : PromptRequest) :
    String × Option DynModel × Bool :=
  let init : Option DynModel × Bool := (none, false)
  let (response_model, has_schema) :=
    match prompt_request.response_format with
    | none => init
    | some fields =>
      if !fields.isEmpty &&
          (match lookupKey fields "type" with
           | some (.str t) => t == "json_schema"
           | _ => false) then
        let json_schema := (lookupKey fields "json_schema").getD (.obj [])
        if json_schema.truthy && jsonHasKey json_schema "schema" then
          let schema_name :=
            match jsonGet json_schema "name" with
            | some (.str s) => s
            | _ => "DynamicSchema"
          let schema_obj := (jsonGet json_schema "schema").getD .null
          (some (create_dynamic_model_from_schema schema_name schema_obj), true)
        else (none, true)
      else init
  (prompt_request.prompt, response_model, has_schema)

/-- One entry of `prepared_requests`:
`(i, prompt_request, prompt, response_model, has_schema)`. -/
structure Prepared where
  req_idx : Nat
  request : PromptRequest
  prompt : Option String
  response_model : Option DynModel
  has_schema : Bool

/-- Phase-1 handling of one request: on success the prepared tuple, on a
raise `(i, prompt_request, None, None, False)`. -/
def prepEntry (prepare : Prep) (i : Nat) (prompt_request : PromptRequest) : Prepared :=
  match prepare prompt_request with
  | .ok (prompt, response_model, has_schema) =>
    ⟨i, prompt_request, some prompt, response_model, has_schema⟩
  | .error _ => ⟨i, prompt_request, none, none, false⟩

/-- The result the dispatch phase will obtain for one request: `none` when
preparation failed (no call issued), otherwise the LLM call result. -/
def taskOfReq (prepare : Prep) (llm : Llm) (prompt_request : PromptRequest) :
    Option LlmResult :=
  match prepare prompt_request with
  | .ok (prompt, response_model, _) => some (llm prompt response_model)
  | .error _ => none

/-- `asyncio.gather(*tasks, return_exceptions=True)` over a completion log:
the log lists `(task index, task result)` events in completion order; gather
returns the results in task-submission order `0, 1, ..., k-1` regardless of
the completion order.  (The fallback for an index missing from the log is
unreachable when the log covers every task.) -/
def gatherFromLog (k : Nat) (log : List (Nat × LlmResult)) : List LlmResult :=
  (List.range k).map (fun i =>
    match log.find? (fun p => p.1 == i) with
    | some p => p.2
    | none => .error "")

/-- The `ordered_responses` reconstruction (`processor.py` lines 135-141):
walk `prepared_requests` with running position `i` and `response_idx`; for
each dispatched task store `llm_responses[response_idx]` at slot `req_idx`. -/
def reconstructLoop (llm_tasks : List (Option LlmResult)) (llm_responses : List LlmResult) :
    List Prepared → Nat → Nat → List (Option LlmResult) → List (Option LlmResult)
  | [], _, _, ordered_responses => ordered_responses
  | entry :: rest, i, response_idx, ordered_responses =>
    match llm_tasks.getD i none with
    | none => reconstructLoop llm_tasks llm_responses rest (i + 1) response_idx ordered_responses
    | some _ =>
      reconstructLoop llm_tasks llm_responses rest (i + 1) (response_idx + 1)
        (ordered_responses.set entry.req_idx
          (some (llm_responses.getD response_idx (.error ""))))

/-- Output of one window (and of its reconcile loop): the returned tuple
`(batch_responses, batch_completed, batch_failed, new_first_result_time)`
plus the threaded clock. -/
structure BatchOut where
  responses : List PromptResponse
  batch_completed : Nat
  batch_failed : Nat
  first_result_time : Option Nat
  clock : Nat

/-- Phase 3 of `process_batch` (`processor.py` lines 149-196): walk
`prepared_requests` in order.  A skipped task raises
`ValueError("Failed to prepare request")`; an exception stored in
`ordered_responses` is re-raised; both are caught per item and converted to
an error Outcome.  A success increments `batch_completed` and records
`new_first_result_time` the first time `completed + batch_completed == 1`.
`time.time()` is the clock: one call for `item_start`, one more on the error
paths (`item_duration`) or when the first result time is recorded.  (A slot
never filled by reconstruction is Python `None`, processed as a plain `None`
response value; unreachable under a complete completion log.) -/
def reconcileLoop (completed : Nat) (llm_tasks : List (Option LlmResult))
    (ordered_responses : List (Option LlmResult)) :
    List Prepared → Nat → List PromptResponse → Nat → Nat → Option Nat → Nat → BatchOut
  | [], _, batch_responses, batch_completed, batch_failed, new_first_result_time, clock =>
    ⟨batch_responses, batch_completed, batch_failed, new_first_result_time, clock⟩
  | entry :: rest, i, batch_responses, batch_completed, batch_failed,
      new_first_result_time, clock =>
    match llm_tasks.getD i none with
    | none =>
      reconcileLoop completed llm_tasks ordered_responses rest (i + 1)
        (batch_responses ++ [⟨"error", .null, some "Failed to prepare request"⟩])
        batch_completed (batch_failed + 1) new_first_result_time (clock + 1 + 1)
    | some _ =>
      match (ordered_responses.getD entry.req_idx none).getD (.ok (.plain .null)) with
      | .error e =>
        reconcileLoop completed llm_tasks ordered_responses rest (i + 1)
          (batch_responses ++ [⟨"error", .null, some e⟩])
          batch_completed (batch_failed + 1) new_first_result_time (clock + 1 + 1)
      | .ok response_data =>
        let response := prepare_prompt_response response_data
          entry.request.extract_field_path entry.has_schema
        if response.status == "error" then
          reconcileLoop completed llm_tasks ordered_responses rest (i + 1)
            (batch_responses ++ [response]) batch_completed (batch_failed + 1)
            new_first_result_time (clock + 1)
        else
          if new_first_result_time.isNone && completed + (batch_completed + 1) == 1 then
            reconcileLoop completed llm_tasks ordered_responses rest (i + 1)
              (batch_responses ++ [response]) (batch_completed + 1) batch_failed
              (some (clock + 1)) (clock + 1 + 1)
          else
            reconcileLoop completed llm_tasks ordered_responses rest (i + 1)
              (batch_responses ++ [response]) (batch_completed + 1) batch_failed
              new_first_result_time (clock + 1)

/-- `process_batch` (`processor.py` lines 70-215) for one window, given the
completion `order` of the dispatched tasks (a permutation of their indices
when the schedule is valid). -/
def process_batch (prepare : Prep) (llm : Llm) (order : List Nat)
    (batch : List PromptRequest) (completed : Nat)
    (first_result_time : Option Nat) (clock : Nat) : BatchOut :=
  let clock := clock + 1
  let prepared_requests := batch.enum.map (fun p => prepEntry prepare p.1 p.2)
  let llm_tasks := prepared_requests.map (fun e =>
    match e.prompt with
    | none => none
    | some prompt => some (llm prompt e.response_model))
  let dispatched := llm_tasks.filterMap id
  let llm_responses :=
    gatherFromLog dispatched.length (order.map (fun j => (j, dispatched.getD j (.error ""))))
  let ordered_responses := reconstructLoop llm_tasks llm_responses prepared_requests 0 0
    (List.replicate prepared_requests.length none)
  let out := reconcileLoop completed llm_tasks ordered_responses prepared_requests 0
    [] 0 0 first_result_time clock
  ⟨out.responses, out.batch_completed, out.batch_failed, out.first_result_time,
    out.clock + 1⟩

/-- Structural helper for the window slicing: `fuel` bounds the number of
windows (any `fuel ≥ xs.length` is enough when `1 ≤ batch_size`); structural
recursion keeps the definition kernel-reducible. -/
def chunkListFuel (batch_size : Nat) : Nat → List PromptRequest → List (List PromptRequest)
  | _, [] => []
  | 0, _ :: _ => []
  | fuel + 1, a :: t =>
    if batch_size = 0 then []
    else (a :: t).take batch_size :: chunkListFuel batch_size fuel ((a :: t).drop batch_size)

/-- The window slicing `request.prompts[i : i + batch_size]` of the loop
`for i in range(0, total_prompts, batch_size)`.  (`batch_size = 0` raises in
Python; claims assume `1 ≤ batch_size`, under which the fuel never runs
out.) -/
def chunkList (batch_size : Nat) (xs : List PromptRequest) : List (List PromptRequest) :=
  chunkListFuel batch_size xs.length xs

/-- Aggregate state of the whole run. -/
structure RunOut where
  responses : List PromptResponse
  completed : Nat
  failed : Nat
  first_result_time : Option Nat
  clock : Nat

/-- The window loop of `process_multiple_prompts` (`processor.py` lines
251-291): process each window sequentially, extend `all_responses`, add the
window tallies, and copy `new_first_result_time` only while
`first_result_time` is still `None`.  `orders` gives each window its
completion order. -/
def batchesLoop (prepare : Prep) (llm : Llm) (orders : Nat → List Nat) :
    List (List PromptRequest) → Nat → List PromptResponse → Nat → Nat →
      Option Nat → Nat → RunOut
  | [], _, all_responses, completed, failed, first_result_time, clock =>
    ⟨all_responses, completed, failed, first_result_time, clock⟩
  | batch :: rest, w, all_responses, completed, failed, first_result_time, clock =>
    let out := process_batch prepare llm (orders w) batch completed first_result_time clock
    let first_result_time' :=
      if first_result_time.isNone && out.first_result_time.isSome then
        out.first_result_time
      else first_result_time
    batchesLoop prepare llm orders rest (w + 1) (all_responses ++ out.responses)
      (completed + out.batch_completed) (failed + out.batch_failed)
      first_result_time' out.clock

/-- `process_multiple_prompts(llm_client, request, batch_size)` — the Batch
Orchestrator entry point; `prompts` is `request.prompts`. -/
def process_multiple_prompts (prepare : Prep) (llm : Llm) (orders : Nat → List Nat)
    (prompts : List PromptRequest) (batch_size : Nat) (clock : Nat) : RunOut :=
  let clock := clock + 1
  let r := batchesLoop prepare llm orders (chunkList batch_size prompts) 0 [] 0 0 none clock
  ⟨r.responses, r.completed, r.failed, r.first_result_time, r.clock + 1⟩

/-- The single-prompt route core (`src/api/routes/prompts.py` lines 51-85):
the same schema detection as `prepare_prompt_request`, one LLM call, then the
Response Preparer; a raised call becomes an error Outcome. -/
def process_single_prompt (llm : Llm) (prompt_request : PromptRequest) : PromptResponse :=
  let t := prepare_prompt_request prompt_request
  match llm t.1 t.2.1 with
  | .error e => ⟨"error", .null, some e⟩
  | .ok response_data =>
    prepare_prompt_response response_data prompt_request.extract_field_path t.2.2

/-- Reference per-item semantics: the Outcome the pipeline assigns to one
request, independent of windowing and completion order (derived from the
reconcile phase: a failed preparation raises
`ValueError("Failed to prepare request")`, a raised LLM call becomes an error
Outcome, a returned value goes through the Response Preparer). -/
def itemOutcome (prepare : Prep) (llm : Llm) (prompt_request : PromptRequest) :
    PromptResponse :=
  match prepare prompt_request with
  | .error _ => ⟨"error", .null, some "Failed to prepare request"⟩
  | .ok (prompt, response_model, has_schema) =>
    match llm prompt response_model with
    | .error e => ⟨"error", .null, some e⟩
    | .ok response_data =>
      prepare_prompt_response response_data prompt_request.extract_field_path has_schema

/-- `True` iff preparation succeeds (the item will be dispatched). -/
def prepOk (prepare : Prep) (prompt_request : PromptRequest) : Bool :=
  match prepare prompt_request with
  | .ok _ => true
  | .error _ => false

/-- Number of dispatched LLM calls in a window. -/
def dispatchCount (prepare : Prep) (batch : List PromptRequest) : Nat :=
  batch.countP (prepOk prepare)

/-- A completion schedule is valid when each window's order is a permutation
of the indices of its dispatched tasks (what `asyncio.gather` guarantees). -/
def ValidOrders (prepare : Prep) (orders : Nat → List Nat)
    (prompts : List PromptRequest) (batch_size : Nat) : Prop :=
  ∀ w, w < (chunkList batch_size prompts).length →
    (orders w).Perm
      (List.range (dispatchCount prepare ((chunkList batch_size prompts).getD w [])))

/-! ## Derived notions used in the statements -/

/-- The Outcome record invariant (spec §3): `error` is non-null iff
`status == "error"`, and `response` is null when `status == "error"`. -/
def outcomeInvariant (r : PromptResponse) : Prop :=
  (r.error ≠ none ↔ r.status = "error") ∧ (r.status = "error" → r.response = .null)

/-- Number of success Outcomes the pipeline assigns to a list of requests
(the code counts a success whenever `response.status != "error"`). -/
def countSucc (prepare : Prep) (llm : Llm) (l : List PromptRequest) : Nat :=
  (l.map (itemOutcome prepare llm)).countP (fun r => !(r.status == "error"))

/-- Number of error Outcomes the pipeline assigns to a list of requests. -/
def countErr (prepare : Prep) (llm : Llm) (l : List PromptRequest) : Nat :=
  (l.map (itemOutcome prepare llm)).countP (fun r => r.status == "error")

/-- Whether some request in the list gets a success Outcome. -/
def hasSucc (prepare : Prep) (llm : Llm) (l : List PromptRequest) : Bool :=
  (l.map (itemOutcome prepare llm)).any (fun r => !(r.status == "error"))

/-- Segment-by-segment mapping-key resolution of a path: `some` iff every
listed segment resolves (the descent `extract_field` performs). -/
def resolve : Json → List String → Option Json
  | current, [] => some current
  | current, part :: rest =>
    match current with
    | .obj fields =>
      match lookupKey fields part with
      | some v => resolve v rest
      | none => none
    | _ => none

/-! ## Helper lemmas -/

theorem pySplitChars_ne_nil (sep : Char) (cs : List Char) : pySplitChars sep cs ≠ [] := by
  cases cs with
  | nil => simp [pySplitChars]
  | cons a rest =>
    rw [pySplitChars]
    cases hr : pySplitChars sep rest with
    | nil => simp
    | cons h t => dsimp only; split <;> simp

theorem pySplit_ne_nil (sep : Char) (s : String) : pySplit sep s ≠ [] := by
  unfold pySplit
  intro h
  exact pySplitChars_ne_nil sep s.toList (List.map_eq_nil_iff.mp h)

theorem filterMap_id_length (l : List (Option LlmResult)) :
    (l.filterMap id).length = l.countP (fun o => o.isSome) := by
  induction l with
  | nil => rfl
  | cons a t ih => cases a <;> simp [List.filterMap_cons, List.countP_cons, ih]

theorem filterMap_getD_countP (l : List (Option LlmResult)) :
    ∀ (i : Nat) (v d : LlmResult), l.getD i none = some v →
      (l.filterMap id).getD ((l.take i).countP (fun o => o.isSome)) d = v := by
  induction l with
  | nil => intro i v d h; simp [List.getD_eq_getElem?_getD] at h
  | cons a t ih =>
    intro i v d h
    cases i with
    | zero =>
      simp only [List.getD_eq_getElem?_getD, List.getElem?_cons_zero, Option.getD_some] at h
      subst h
      simp [List.filterMap_cons, List.getD_eq_getElem?_getD]
    | succ n =>
      simp only [List.getD_eq_getElem?_getD, List.getElem?_cons_succ] at h
      have h' : t.getD n none = some v := by
        simp [List.getD_eq_getElem?_getD, h]
      cases a with
      | none =>
        simpa [List.filterMap_cons, List.take_succ_cons, List.countP_cons] using ih n v d h'
      | some w =>
        rw [List.take_succ_cons, List.countP_cons]
        simp only [Option.isSome_some, if_pos rfl, List.filterMap_cons, id]
        simpa [List.getD_eq_getElem?_getD, List.getElem?_cons_succ] using ih n v d h'

theorem find?_log (res : List LlmResult) (d : LlmResult) :
    ∀ (order : List Nat) (i : Nat), i ∈ order →
      (order.map (fun j => (j, res.getD j d))).find? (fun p => p.1 == i)
        = some (i, res.getD i d) := by
  intro order
  induction order with
  | nil => intro i h; cases h
  | cons j t ih =>
    intro i h
    by_cases hj : j = i
    · subst hj; simp [List.find?_cons]
    · have hb : (j == i) = false := by simp [hj]
      have hm : i ∈ t := by
        cases List.mem_cons.mp h with
        | inl h' => exact absurd h'.symm hj
        | inr h' => exact h'
      rw [List.map_cons, List.find?_cons]
      simp only [hb]
      exact ih i hm

theorem range_map_getD (l : List LlmResult) (d : LlmResult) :
    (List.range l.length).map (fun i => l.getD i d) = l := by
  apply List.ext_getElem
  · simp
  · intro n h1 h2
    simp [List.getD_eq_getElem?_getD, List.getElem?_eq_getElem h2]

theorem gatherFromLog_valid (res : List LlmResult) (order : List Nat)
    (h : order.Perm (List.range res.length)) :
    gatherFromLog res.length (order.map (fun j => (j, res.getD j (.error "")))) = res := by
  have hmem : ∀ i, i < res.length → i ∈ order := fun i hi =>
    h.mem_iff.mpr (List.mem_range.mpr hi)
  unfold gatherFromLog
  apply List.ext_getElem
  · simp
  · intro n h1 h2
    rw [List.getElem_map]
    simp only [List.getElem_range]
    rw [find?_log res (.error "") order n (hmem n h2)]
    simp [List.getD_eq_getElem?_getD, List.getElem?_eq_getElem h2]

theorem prepEntry_req_idx (prepare : Prep) (i : Nat) (pr : PromptRequest) :
    (prepEntry prepare i pr).req_idx = i := by
  match hp : prepare pr with
  | .ok (p, m, h) => simp [prepEntry, hp]
  | .error e => simp [prepEntry, hp]

theorem taskOf_prepEntry (prepare : Prep) (llm : Llm) (i : Nat) (pr : PromptRequest) :
    (match (prepEntry prepare i pr).prompt with
     | none => none
     | some prompt => some (llm prompt (prepEntry prepare i pr).response_model))
    = taskOfReq prepare llm pr := by
  match hp : prepare pr with
  | .ok (p, m, h) => simp [prepEntry, taskOfReq, hp]
  | .error e => simp [prepEntry, taskOfReq, hp]

theorem enumFrom_map_taskOf (prepare : Prep) (llm : Llm) :
    ∀ (l : List PromptRequest) (n : Nat),
      ((l.enumFrom n).map (fun p => prepEntry prepare p.1 p.2)).map (fun e =>
          match e.prompt with
          | none => none
          | some prompt => some (llm prompt e.response_model))
        = l.map (taskOfReq prepare llm) := by
  intro l
  induction l with
  | nil => intro n; rfl
  | cons a t ih =>
    intro n
    simp only [List.enumFrom_cons, List.map_cons, ih]
    congr 1
    exact taskOf_prepEntry prepare llm n a

theorem reconstructLoop_eq (tasks : List (Option LlmResult)) :
    ∀ (entries : List Prepared) (i : Nat) (acc : List (Option LlmResult)),
      acc.length = tasks.length →
      (∀ k (hk : k < entries.length), (entries.get ⟨k, hk⟩).req_idx = i + k) →
      i + entries.length = tasks.length →
      (∀ j, j < i → acc.getD j none = tasks.getD j none) →
      (∀ j, i ≤ j → acc.getD j none = none) →
      reconstructLoop tasks (tasks.filterMap id) entries i
        ((tasks.take i).countP (fun o => o.isSome)) acc = tasks := by
  intro entries
  induction entries with
  | nil =>
    intro i acc hlen _ hni hlow _
    have hi : i = tasks.length := by simpa using hni
    subst hi
    show acc = tasks
    apply List.ext_getElem hlen
    intro n h1 h2
    have e := hlow n h2
    rw [List.getD_eq_getElem?_getD, List.getD_eq_getElem?_getD,
      List.getElem?_eq_getElem h1, List.getElem?_eq_getElem h2] at e
    simpa using e
  | cons e rest ih =>
    intro i acc hlen hid hni hlow hup
    have hi_lt : i < tasks.length := by
      simp only [List.length_cons] at hni; omega
    have he : e.req_idx = i := by
      have := hid 0 (by simp)
      simpa using this
    simp only [reconstructLoop]
    cases ht : tasks.getD i none with
    | none =>
      have hgi : tasks[i]? = some none := by
        rw [List.getD_eq_getElem?_getD, List.getElem?_eq_getElem hi_lt] at ht
        rw [List.getElem?_eq_getElem hi_lt]
        simpa using ht
      have hcount : ((tasks.take (i + 1)).countP (fun o => o.isSome))
          = (tasks.take i).countP (fun o => o.isSome) := by
        rw [List.take_succ, hgi]
        simp [List.countP_append]
      have hrec := ih (i + 1) acc hlen
        (fun k hk => by
          have := hid (k + 1) (by simpa using Nat.succ_lt_succ hk)
          simpa [Nat.add_assoc, Nat.add_comm 1 k] using this)
        (by simp only [List.length_cons] at hni; omega)
        (fun j hj => by
          rcases Nat.lt_succ_iff_lt_or_eq.mp hj with hj' | hj'
          · exact hlow j hj'
          · subst hj'; rw [hup j le_rfl, ht])
        (fun j hj => hup j (by omega))
      rw [hcount] at hrec
      exact hrec
    | some r =>
      have hgi : tasks[i]? = some (some r) := by
        rw [List.getD_eq_getElem?_getD, List.getElem?_eq_getElem hi_lt] at ht
        rw [List.getElem?_eq_getElem hi_lt]
        simpa using ht
      have hval : (tasks.filterMap id).getD ((tasks.take i).countP (fun o => o.isSome))
          (.error "") = r :=
        filterMap_getD_countP tasks i r _ ht
      have hcount : ((tasks.take (i + 1)).countP (fun o => o.isSome))
          = (tasks.take i).countP (fun o => o.isSome) + 1 := by
        rw [List.take_succ, hgi]
        simp [List.countP_append]
      rw [he, hval]
      have hacc_len : (acc.set i (some r)).length = tasks.length := by
        rw [List.length_set]; exact hlen
      have hrec := ih (i + 1) (acc.set i (some r)) hacc_len
        (fun k hk => by
          have := hid (k + 1) (by simpa using Nat.succ_lt_succ hk)
          simpa [Nat.add_assoc, Nat.add_comm 1 k] using this)
        (by simp only [List.length_cons] at hni; omega)
        (fun j hj => by
          rcases Nat.lt_succ_iff_lt_or_eq.mp hj with hj' | hj'
          · have hne : i ≠ j := by omega
            rw [List.getD_eq_getElem?_getD, List.getElem?_set_ne hne,
              ← List.getD_eq_getElem?_getD]
            exact hlow j hj'
          · subst hj'
            rw [List.getD_eq_getElem?_getD,
              List.getElem?_set_self (hlen ▸ hi_lt), Option.getD_some, ht])
        (fun j hj => by
          have hne : i ≠ j := by omega
          rw [List.getD_eq_getElem?_getD, List.getElem?_set_ne hne,
            ← List.getD_eq_getElem?_getD]
          exact hup j (by omega))
      rw [hcount] at hrec
      exact hrec

theorem countSucc_nil (prepare : Prep) (llm : Llm) : countSucc prepare llm [] = 0 := rfl

theorem countErr_nil (prepare : Prep) (llm : Llm) : countErr prepare llm [] = 0 := rfl

theorem countSucc_cons (prepare : Prep) (llm : Llm) (a : PromptRequest)
    (t : List PromptRequest) :
    countSucc prepare llm (a :: t) = countSucc prepare llm t
      + (if (itemOutcome prepare llm a).status == "error" then 0 else 1) := by
  unfold countSucc
  rw [List.map_cons, List.countP_cons]
  congr 1
  cases h : (itemOutcome prepare llm a).status == "error" <;> simp [h]

theorem countErr_cons (prepare : Prep) (llm : Llm) (a : PromptRequest)
    (t : List PromptRequest) :
    countErr prepare llm (a :: t) = countErr prepare llm t
      + (if (itemOutcome prepare llm a).status == "error" then 1 else 0) := by
  unfold countErr
  rw [List.map_cons, List.countP_cons]

theorem reconcileLoop_spec (prepare : Prep) (llm : Llm) (completed : Nat)
    (tasks ordered : List (Option LlmResult)) :
    ∀ (l : List PromptRequest) (i : Nat) (resps : List PromptResponse)
      (bc bf : Nat) (nfrt : Option Nat) (clock : Nat),
      (∀ k (hk : k < l.length),
        tasks.getD (i + k) none = taskOfReq prepare llm (l.get ⟨k, hk⟩)) →
      (∀ k (hk : k < l.length),
        ordered.getD (i + k) none = taskOfReq prepare llm (l.get ⟨k, hk⟩)) →
      ((reconcileLoop completed tasks ordered
          ((l.enumFrom i).map (fun p => prepEntry prepare p.1 p.2)) i resps bc bf
          nfrt clock).responses
        = resps ++ l.map (itemOutcome prepare llm))
      ∧ ((reconcileLoop completed tasks ordered
          ((l.enumFrom i).map (fun p => prepEntry prepare p.1 p.2)) i resps bc bf
          nfrt clock).batch_completed
        = bc + countSucc prepare llm l)
      ∧ ((reconcileLoop completed tasks ordered
          ((l.enumFrom i).map (fun p => prepEntry prepare p.1 p.2)) i resps bc bf
          nfrt clock).batch_failed
        = bf + countErr prepare llm l) := by
  intro l
  induction l with
  | nil =>
    intro i resps bc bf nfrt clock _ _
    refine ⟨?_, ?_, ?_⟩ <;> simp [reconcileLoop, countSucc_nil, countErr_nil]
  | cons a t ih =>
    intro i resps bc bf nfrt clock ht ho
    have h0 : tasks.getD i none = taskOfReq prepare llm a := by
      have := ht 0 (by simp)
      simpa using this
    have ho0 : ordered.getD i none = taskOfReq prepare llm a := by
      have := ho 0 (by simp)
      simpa using this
    have ht' : ∀ k (hk : k < t.length),
        tasks.getD ((i + 1) + k) none = taskOfReq prepare llm (t.get ⟨k, hk⟩) := by
      intro k hk
      have := ht (k + 1) (by simpa using Nat.succ_lt_succ hk)
      simpa [Nat.add_assoc, Nat.add_comm 1 k] using this
    have ho' : ∀ k (hk : k < t.length),
        ordered.getD ((i + 1) + k) none = taskOfReq prepare llm (t.get ⟨k, hk⟩) := by
      intro k hk
      have := ho (k + 1) (by simpa using Nat.succ_lt_succ hk)
      simpa [Nat.add_assoc, Nat.add_comm 1 k] using this
    match hp : prepare a with
    | .error err =>
      have htask : tasks.getD i none = none := by
        rw [h0]; simp [taskOfReq, hp]
      have hitem : itemOutcome prepare llm a
          = ⟨"error", .null, some "Failed to prepare request"⟩ := by
        simp [itemOutcome, hp]
      simp only [List.enumFrom_cons, List.map_cons, reconcileLoop, htask]
      obtain ⟨h1, h2, h3⟩ := ih (i + 1)
        (resps ++ [⟨"error", .null, some "Failed to prepare request"⟩]) bc (bf + 1)
        nfrt (clock + 1 + 1) ht' ho'
      refine ⟨?_, ?_, ?_⟩
      · rw [h1, hitem]; simp
      · rw [h2, countSucc_cons, hitem]; simp
      · rw [h3, countErr_cons, hitem]; simp; omega
    | .ok (pt, m, hs) =>
      have hentry : prepEntry prepare i a = ⟨i, a, some pt, m, hs⟩ := by
        simp [prepEntry, hp]
      have htask : tasks.getD i none = some (llm pt m) := by
        rw [h0]; simp [taskOfReq, hp]
      have hord : ordered.getD i none = some (llm pt m) := by
        rw [ho0]; simp [taskOfReq, hp]
      simp only [List.enumFrom_cons, List.map_cons, reconcileLoop, htask, hentry, hord,
        Option.getD_some]
      match hl : llm pt m with
      | .error e =>
        have hitem : itemOutcome prepare llm a = ⟨"error", .null, some e⟩ := by
          simp [itemOutcome, hp, hl]
        obtain ⟨h1, h2, h3⟩ := ih (i + 1) (resps ++ [⟨"error", .null, some e⟩]) bc
          (bf + 1) nfrt (clock + 1 + 1) ht' ho'
        refine ⟨?_, ?_, ?_⟩
        · rw [h1, hitem]; simp
        · rw [h2, countSucc_cons, hitem]; simp
        · rw [h3, countErr_cons, hitem]; simp; omega
      | .ok raw =>
        have hitem : itemOutcome prepare llm a
            = prepare_prompt_response raw a.extract_field_path hs := by
          simp [itemOutcome, hp, hl]
        match hst : (prepare_prompt_response raw a.extract_field_path hs).status == "error" with
        | true =>
          simp only [hst, if_true]
          obtain ⟨h1, h2, h3⟩ := ih (i + 1)
            (resps ++ [prepare_prompt_response raw a.extract_field_path hs]) bc
            (bf + 1) nfrt (clock + 1) ht' ho'
          refine ⟨?_, ?_, ?_⟩
          · rw [h1, hitem]; simp
          · rw [h2, countSucc_cons, hitem, hst]; simp
          · rw [h3, countErr_cons, hitem, hst]; simp; omega
        | false =>
          simp only [hst, if_false, Bool.false_eq_true]
          match hcond : nfrt.isNone && (completed + (bc + 1) == 1) with
          | true =>
            simp only [hcond, if_true]
            obtain ⟨h1, h2, h3⟩ := ih (i + 1)
              (resps ++ [prepare_prompt_response raw a.extract_field_path hs]) (bc + 1)
              bf (some (clock + 1)) (clock + 1 + 1) ht' ho'
            refine ⟨?_, ?_, ?_⟩
            · rw [h1, hitem]; simp
            · rw [h2, countSucc_cons, hitem, hst]; simp; omega
            · rw [h3, countErr_cons, hitem, hst]; simp
          | false =>
            simp only [hcond, if_false, Bool.false_eq_true]
            obtain ⟨h1, h2, h3⟩ := ih (i + 1)
              (resps ++ [prepare_prompt_response raw a.extract_field_path hs]) (bc + 1)
              bf nfrt (clock + 1) ht' ho'
            refine ⟨?_, ?_, ?_⟩
            · rw [h1, hitem]; simp
            · rw [h2, countSucc_cons, hitem, hst]; simp; omega
            · rw [h3, countErr_cons, hitem, hst]; simp

theorem hasSucc_nil (prepare : Prep) (llm : Llm) : hasSucc prepare llm [] = false := rfl

theorem hasSucc_cons (prepare : Prep) (llm : Llm) (a : PromptRequest)
    (t : List PromptRequest) :
    hasSucc prepare llm (a :: t)
      = (!((itemOutcome prepare llm a).status == "error") || hasSucc prepare llm t) := by
  unfold hasSucc
  simp [List.any_cons]

theorem reconcileLoop_frt_some (completed : Nat) (tasks ordered : List (Option LlmResult)) :
    ∀ (entries : List Prepared) (i : Nat) (resps : List PromptResponse)
      (bc bf t clock : Nat),
      (reconcileLoop completed tasks ordered entries i resps bc bf (some t)
        clock).first_result_time = some t := by
  intro entries
  induction entries with
  | nil => intro i resps bc bf t clock; rfl
  | cons e rest ih =>
    intro i resps bc bf t clock
    simp only [reconcileLoop]
    cases tasks.getD i none with
    | none => exact ih _ _ _ _ _ _
    | some r =>
      cases (ordered.getD e.req_idx none).getD (.ok (.plain .null)) with
      | error e' => exact ih _ _ _ _ _ _
      | ok raw =>
        simp only [Option.isNone_some, Bool.false_and, Bool.false_eq_true, if_false]
        split <;> exact ih _ _ _ _ _ _

theorem reconcileLoop_frt_none_pos (completed : Nat) (hc : 1 ≤ completed)
    (tasks ordered : List (Option LlmResult)) :
    ∀ (entries : List Prepared) (i : Nat) (resps : List PromptResponse)
      (bc bf clock : Nat),
      (reconcileLoop completed tasks ordered entries i resps bc bf none
        clock).first_result_time = none := by
  intro entries
  induction entries with
  | nil => intro i resps bc bf clock; rfl
  | cons e rest ih =>
    intro i resps bc bf clock
    simp only [reconcileLoop]
    cases tasks.getD i none with
    | none => exact ih _ _ _ _ _
    | some r =>
      cases (ordered.getD e.req_idx none).getD (.ok (.plain .null)) with
      | error e' => exact ih _ _ _ _ _
      | ok raw =>
        have hne : (completed + (bc + 1) == 1) = false := by
          have : completed + (bc + 1) ≠ 1 := by omega
          exact beq_eq_false_iff_ne.mpr this
        simp only [hne, Bool.and_false, Bool.false_eq_true, if_false]
        split <;> exact ih _ _ _ _ _

theorem reconcileLoop_frt_isSome (prepare : Prep) (llm : Llm)
    (tasks ordered : List (Option LlmResult)) :
    ∀ (l : List PromptRequest) (i : Nat) (resps : List PromptResponse)
      (bc bf : Nat) (nfrt : Option Nat) (clock : Nat),
      (∀ k (hk : k < l.length),
        tasks.getD (i + k) none = taskOfReq prepare llm (l.get ⟨k, hk⟩)) →
      (∀ k (hk : k < l.length),
        ordered.getD (i + k) none = taskOfReq prepare llm (l.get ⟨k, hk⟩)) →
      (reconcileLoop 0 tasks ordered
          ((l.enumFrom i).map (fun p => prepEntry prepare p.1 p.2)) i resps bc bf
          nfrt clock).first_result_time.isSome
        = (nfrt.isSome || (bc == 0 && hasSucc prepare llm l)) := by
  intro l
  induction l with
  | nil =>
    intro i resps bc bf nfrt clock _ _
    simp [reconcileLoop, hasSucc_nil]
  | cons a t ih =>
    intro i resps bc bf nfrt clock ht ho
    have h0 : tasks.getD i none = taskOfReq prepare llm a := by
      have := ht 0 (by simp)
      simpa using this
    have ho0 : ordered.getD i none = taskOfReq prepare llm a := by
      have := ho 0 (by simp)
      simpa using this
    have ht' : ∀ k (hk : k < t.length),
        tasks.getD ((i + 1) + k) none = taskOfReq prepare llm (t.get ⟨k, hk⟩) := by
      intro k hk
      have := ht (k + 1) (by simpa using Nat.succ_lt_succ hk)
      simpa [Nat.add_assoc, Nat.add_comm 1 k] using this
    have ho' : ∀ k (hk : k < t.length),
        ordered.getD ((i + 1) + k) none = taskOfReq prepare llm (t.get ⟨k, hk⟩) := by
      intro k hk
      have := ho (k + 1) (by simpa using Nat.succ_lt_succ hk)
      simpa [Nat.add_assoc, Nat.add_comm 1 k] using this
    match hp : prepare a with
    | .error err =>
      have htask : tasks.getD i none = none := by
        rw [h0]; simp [taskOfReq, hp]
      have hitem : itemOutcome prepare llm a
          = ⟨"error", .null, some "Failed to prepare request"⟩ := by
        simp [itemOutcome, hp]
      simp only [List.enumFrom_cons, List.map_cons, reconcileLoop, htask]
      rw [ih (i + 1) _ bc (bf + 1) nfrt _ ht' ho', hasSucc_cons, hitem]
      simp
    | .ok (pt, m, hs) =>
      have hentry : prepEntry prepare i a = ⟨i, a, some pt, m, hs⟩ := by
        simp [prepEntry, hp]
      have htask : tasks.getD i none = some (llm pt m) := by
        rw [h0]; simp [taskOfReq, hp]
      have hord : ordered.getD i none = some (llm pt m) := by
        rw [ho0]; simp [taskOfReq, hp]
      simp only [List.enumFrom_cons, List.map_cons, reconcileLoop, htask, hentry, hord,
        Option.getD_some]
      match hl : llm pt m with
      | .error e =>
        have hitem : itemOutcome prepare llm a = ⟨"error", .null, some e⟩ := by
          simp [itemOutcome, hp, hl]
        rw [ih (i + 1) _ bc (bf + 1) nfrt _ ht' ho', hasSucc_cons, hitem]
        simp
      | .ok raw =>
        have hitem : itemOutcome prepare llm a
            = prepare_prompt_response raw a.extract_field_path hs := by
          simp [itemOutcome, hp, hl]
        match hst : (prepare_prompt_response raw a.extract_field_path hs).status == "error" with
        | true =>
          simp only [hst, if_true]
          rw [ih (i + 1) _ bc (bf + 1) nfrt _ ht' ho', hasSucc_cons, hitem, hst]
          simp
        | false =>
          simp only [hst, if_false, Bool.false_eq_true]
          match hcond : nfrt.isNone && (0 + (bc + 1) == 1) with
          | true =>
            have hbc : bc = 0 := by
              have h2 := (Bool.and_eq_true_iff.mp hcond).2
              have := beq_iff_eq.mp h2
              omega
            have hn : nfrt.isSome = false := by
              have h1 := (Bool.and_eq_true_iff.mp hcond).1
              cases nfrt <;> simp_all
            simp only [hcond, if_true]
            rw [reconcileLoop_frt_some]
            rw [hasSucc_cons, hitem, hst]
            simp [hn, hbc]
          | false =>
            simp only [hcond, if_false, Bool.false_eq_true]
            rw [ih (i + 1) _ (bc + 1) bf nfrt _ ht' ho', hasSucc_cons, hitem, hst]
            cases hn : nfrt with
            | some v => simp
            | none =>
              have hbc : bc ≠ 0 := by
                subst hn
                simp only [Option.isNone_none, Bool.true_and] at hcond
                have := beq_eq_false_iff_ne.mp hcond
                omega
              simp [hbc]

theorem prepare_prompt_response_invariant (rd : RawOutput) (p : Option String)
    (hs : Bool) : outcomeInvariant (prepare_prompt_response rd p hs) := by
  unfold prepare_prompt_response outcomeInvariant
  cases hd : (format_response_data rd).isDict <;> cases hp : strOptTruthy p <;>
    simp only [hd, hp, Bool.not_false, Bool.not_true, Bool.false_and, Bool.and_false,
      Bool.true_and, Bool.and_true, if_true, if_false, Bool.false_eq_true]
  · exact ⟨by simp, by simp⟩
  · cases hres : extract_requested_field (Json.obj [("result", format_response_data rd)])
        p hs <;> simp [hres]
  · exact ⟨by simp, by simp⟩
  · cases hres : extract_requested_field (format_response_data rd) p hs <;> simp [hres]

theorem reconcileLoop_mem (completed : Nat) (tasks ordered : List (Option LlmResult)) :
    ∀ (entries : List Prepared) (i : Nat) (resps : List PromptResponse)
      (bc bf : Nat) (nfrt : Option Nat) (clock : Nat) (r : PromptResponse),
      r ∈ (reconcileLoop completed tasks ordered entries i resps bc bf nfrt
        clock).responses →
      r ∈ resps ∨ outcomeInvariant r := by
  intro entries
  induction entries with
  | nil =>
    intro i resps bc bf nfrt clock r h
    exact Or.inl h
  | cons e rest ih =>
    intro i resps bc bf nfrt clock r h
    simp only [reconcileLoop] at h
    have hstep : ∀ (x : PromptResponse), outcomeInvariant x →
        r ∈ resps ++ [x] ∨ outcomeInvariant r → r ∈ resps ∨ outcomeInvariant r := by
      intro x hx hmem
      rcases hmem with hmem | hmem
      · rcases List.mem_append.mp hmem with h' | h'
        · exact Or.inl h'
        · right
          have : r = x := List.mem_singleton.mp h'
          rw [this]
          exact hx
      · exact Or.inr hmem
    revert h
    cases tasks.getD i none with
    | none =>
      intro h
      exact hstep _ ⟨by simp, by simp⟩ (ih _ _ _ _ _ _ _ h)
    | some v =>
      cases (ordered.getD e.req_idx none).getD (.ok (.plain .null)) with
      | error err =>
        intro h
        exact hstep _ ⟨by simp, by simp⟩ (ih _ _ _ _ _ _ _ h)
      | ok raw =>
        intro h
        dsimp only at h
        cases hsplit : (prepare_prompt_response raw e.request.extract_field_path
            e.has_schema).status == "error" with
        | true =>
          simp only [hsplit, if_true] at h
          exact hstep _ (prepare_prompt_response_invariant _ _ _) (ih _ _ _ _ _ _ _ h)
        | false =>
          simp only [hsplit, Bool.false_eq_true, if_false] at h
          cases hcond : (nfrt.isNone && completed + (bc + 1) == 1) with
          | true =>
            simp only [hcond, if_true] at h
            exact hstep _ (prepare_prompt_response_invariant _ _ _) (ih _ _ _ _ _ _ _ h)
          | false =>
            simp only [hcond, Bool.false_eq_true, if_false] at h
            exact hstep _ (prepare_prompt_response_invariant _ _ _) (ih _ _ _ _ _ _ _ h)

theorem getD_map_taskOf (prepare : Prep) (llm : Llm) (batch : List PromptRequest) :
    ∀ k (hk : k < batch.length),
      (batch.map (taskOfReq prepare llm)).getD (0 + k) none
        = taskOfReq prepare llm (batch.get ⟨k, hk⟩) := by
  intro k hk
  rw [Nat.zero_add, List.getD_eq_getElem?_getD,
    List.getElem?_eq_getElem (by simpa using hk)]
  simp [List.getElem_map, List.get_eq_getElem]

theorem enum_prepEntry_req_idx (prepare : Prep) (batch : List PromptRequest) :
    ∀ k (hk : k < ((List.enumFrom 0 batch).map
        (fun p => prepEntry prepare p.1 p.2)).length),
      (((List.enumFrom 0 batch).map (fun p => prepEntry prepare p.1 p.2)).get
        ⟨k, hk⟩).req_idx = 0 + k := by
  intro k hk
  have hk' : k < batch.length := by simpa [List.enumFrom_length] using hk
  simp only [List.get_eq_getElem, List.getElem_map, List.getElem_enumFrom]
  rw [prepEntry_req_idx]

theorem taskOf_isSome (prepare : Prep) (llm : Llm) (pr : PromptRequest) :
    (taskOfReq prepare llm pr).isSome = prepOk prepare pr := by
  cases hp : prepare pr <;> simp [taskOfReq, prepOk, hp]

theorem dispatched_length (prepare : Prep) (llm : Llm) (batch : List PromptRequest) :
    ((batch.map (taskOfReq prepare llm)).filterMap id).length
      = dispatchCount prepare batch := by
  rw [filterMap_id_length, List.countP_map]
  unfold dispatchCount
  apply List.countP_congr
  intro pr _
  have := taskOf_isSome prepare llm pr
  simp [Function.comp, this]

theorem process_batch_eq (prepare : Prep) (llm : Llm) (order : List Nat)
    (batch : List PromptRequest) (completed : Nat) (frt : Option Nat) (clock : Nat)
    (hord : order.Perm (List.range (dispatchCount prepare batch))) :
    process_batch prepare llm order batch completed frt clock
      = ⟨(reconcileLoop completed (batch.map (taskOfReq prepare llm))
            (batch.map (taskOfReq prepare llm))
            ((List.enumFrom 0 batch).map (fun p => prepEntry prepare p.1 p.2)) 0 []
            0 0 frt (clock + 1)).responses,
         (reconcileLoop completed (batch.map (taskOfReq prepare llm))
            (batch.map (taskOfReq prepare llm))
            ((List.enumFrom 0 batch).map (fun p => prepEntry prepare p.1 p.2)) 0 []
            0 0 frt (clock + 1)).batch_completed,
         (reconcileLoop completed (batch.map (taskOfReq prepare llm))
            (batch.map (taskOfReq prepare llm))
            ((List.enumFrom 0 batch).map (fun p => prepEntry prepare p.1 p.2)) 0 []
            0 0 frt (clock + 1)).batch_failed,
         (reconcileLoop completed (batch.map (taskOfReq prepare llm))
            (batch.map (taskOfReq prepare llm))
            ((List.enumFrom 0 batch).map (fun p => prepEntry prepare p.1 p.2)) 0 []
            0 0 frt (clock + 1)).first_result_time,
         (reconcileLoop completed (batch.map (taskOfReq prepare llm))
            (batch.map (taskOfReq prepare llm))
            ((List.enumFrom 0 batch).map (fun p => prepEntry prepare p.1 p.2)) 0 []
            0 0 frt (clock + 1)).clock + 1⟩ := by
  simp only [process_batch, List.enum_eq_enumFrom]
  rw [enumFrom_map_taskOf]
  rw [gatherFromLog_valid _ order (by rw [dispatched_length]; exact hord)]
  have hplen : ((List.enumFrom 0 batch).map
      (fun p => prepEntry prepare p.1 p.2)).length
      = (batch.map (taskOfReq prepare llm)).length := by
    simp [List.enumFrom_length]
  have hrecon := reconstructLoop_eq (batch.map (taskOfReq prepare llm))
    ((List.enumFrom 0 batch).map (fun p => prepEntry prepare p.1 p.2)) 0
    (List.replicate ((List.enumFrom 0 batch).map
      (fun p => prepEntry prepare p.1 p.2)).length none)
    (by simp [hplen])
    (enum_prepEntry_req_idx prepare batch)
    (by omega)
    (fun j hj => absurd hj (Nat.not_lt_zero j))
    (fun j _ => by
      rw [List.getD_eq_getElem?_getD, List.getElem?_replicate]
      split <;> rfl)
  simp only [List.take_zero, List.countP_nil] at hrecon
  rw [hrecon]

theorem process_batch_spec (prepare : Prep) (llm : Llm) (order : List Nat)
    (batch : List PromptRequest) (completed : Nat) (frt : Option Nat) (clock : Nat)
    (hord : order.Perm (List.range (dispatchCount prepare batch))) :
    (process_batch prepare llm order batch completed frt clock).responses
        = batch.map (itemOutcome prepare llm)
      ∧ (process_batch prepare llm order batch completed frt clock).batch_completed
        = countSucc prepare llm batch
      ∧ (process_batch prepare llm order batch completed frt clock).batch_failed
        = countErr prepare llm batch := by
  rw [process_batch_eq prepare llm order batch completed frt clock hord]
  obtain ⟨h1, h2, h3⟩ := reconcileLoop_spec prepare llm completed
    (batch.map (taskOfReq prepare llm)) (batch.map (taskOfReq prepare llm)) batch 0
    [] 0 0 frt (clock + 1) (getD_map_taskOf prepare llm batch)
    (getD_map_taskOf prepare llm batch)
  refine ⟨?_, ?_, ?_⟩
  · rw [h1]; simp
  · rw [h2]; simp
  · rw [h3]; simp

theorem process_batch_frt_some (prepare : Prep) (llm : Llm) (order : List Nat)
    (batch : List PromptRequest) (completed : Nat) (t clock : Nat) :
    (process_batch prepare llm order batch completed (some t)
      clock).first_result_time = some t := by
  simp only [process_batch]
  exact reconcileLoop_frt_some _ _ _ _ _ _ _ _ _ _

theorem process_batch_frt_none_pos (prepare : Prep) (llm : Llm) (order : List Nat)
    (batch : List PromptRequest) (completed : Nat) (hc : 1 ≤ completed) (clock : Nat) :
    (process_batch prepare llm order batch completed none
      clock).first_result_time = none := by
  simp only [process_batch]
  exact reconcileLoop_frt_none_pos _ hc _ _ _ _ _ _ _ _

theorem process_batch_frt_isSome (prepare : Prep) (llm : Llm) (order : List Nat)
    (batch : List PromptRequest) (frt : Option Nat) (clock : Nat)
    (hord : order.Perm (List.range (dispatchCount prepare batch))) :
    (process_batch prepare llm order batch 0 frt clock).first_result_time.isSome
      = (frt.isSome || hasSucc prepare llm batch) := by
  rw [process_batch_eq prepare llm order batch 0 frt clock hord]
  have := reconcileLoop_frt_isSome prepare llm (batch.map (taskOfReq prepare llm))
    (batch.map (taskOfReq prepare llm)) batch 0 [] 0 0 frt (clock + 1)
    (getD_map_taskOf prepare llm batch) (getD_map_taskOf prepare llm batch)
  simpa using this

theorem process_batch_mem (prepare : Prep) (llm : Llm) (order : List Nat)
    (batch : List PromptRequest) (completed : Nat) (frt : Option Nat) (clock : Nat)
    (r : PromptResponse)
    (h : r ∈ (process_batch prepare llm order batch completed frt clock).responses) :
    outcomeInvariant r := by
  simp only [process_batch] at h
  rcases reconcileLoop_mem _ _ _ _ _ _ _ _ _ _ _ h with hr | hr
  · simp at hr
  · exact hr

theorem countSucc_append (prepare : Prep) (llm : Llm) (l1 l2 : List PromptRequest) :
    countSucc prepare llm (l1 ++ l2)
      = countSucc prepare llm l1 + countSucc prepare llm l2 := by
  unfold countSucc
  simp [List.countP_append]

theorem countErr_append (prepare : Prep) (llm : Llm) (l1 l2 : List PromptRequest) :
    countErr prepare llm (l1 ++ l2)
      = countErr prepare llm l1 + countErr prepare llm l2 := by
  unfold countErr
  simp [List.countP_append]

theorem hasSucc_pos (prepare : Prep) (llm : Llm) (l : List PromptRequest) :
    hasSucc prepare llm l = true ↔ 0 < countSucc prepare llm l := by
  unfold hasSucc countSucc
  rw [List.any_eq_true, List.countP_pos_iff]

theorem chunkListFuel_flatten (batch_size : Nat) (hbs : 1 ≤ batch_size) :
    ∀ (n : Nat) (l : List PromptRequest), l.length ≤ n →
      (chunkListFuel batch_size n l).flatten = l := by
  intro n
  induction n with
  | zero =>
    intro l hl
    have : l = [] := List.length_eq_zero.mp (Nat.le_zero.mp hl)
    subst this
    rfl
  | succ n ih =>
    intro l hl
    cases l with
    | nil => rfl
    | cons a t =>
      show (if batch_size = 0 then [] else _).flatten = _
      rw [if_neg (by omega)]
      rw [List.flatten_cons]
      rw [ih ((a :: t).drop batch_size)
        (by simp only [List.length_drop, List.length_cons] at *; omega)]
      exact List.take_append_drop batch_size (a :: t)

theorem chunkList_join (batch_size : Nat) (hbs : 1 ≤ batch_size)
    (l : List PromptRequest) : (chunkList batch_size l).flatten = l :=
  chunkListFuel_flatten batch_size hbs l.length l le_rfl

theorem batchesLoop_spec (prepare : Prep) (llm : Llm) (orders : Nat → List Nat) :
    ∀ (chunks : List (List PromptRequest)) (w : Nat) (acc : List PromptResponse)
      (completed failed : Nat) (frt : Option Nat) (clock : Nat),
      (∀ k (hk : k < chunks.length),
        (orders (w + k)).Perm
          (List.range (dispatchCount prepare (chunks.get ⟨k, hk⟩)))) →
      ((batchesLoop prepare llm orders chunks w acc completed failed frt
          clock).responses
        = acc ++ chunks.flatten.map (itemOutcome prepare llm))
      ∧ ((batchesLoop prepare llm orders chunks w acc completed failed frt
          clock).completed
        = completed + countSucc prepare llm chunks.flatten)
      ∧ ((batchesLoop prepare llm orders chunks w acc completed failed frt
          clock).failed
        = failed + countErr prepare llm chunks.flatten) := by
  intro chunks
  induction chunks with
  | nil =>
    intro w acc completed failed frt clock _
    refine ⟨?_, ?_, ?_⟩ <;> simp [batchesLoop, countSucc, countErr]
  | cons b rest ih =>
    intro w acc completed failed frt clock hord
    have hord0 : (orders w).Perm (List.range (dispatchCount prepare b)) := by
      have := hord 0 (by simp)
      simpa using this
    have hord' : ∀ k (hk : k < rest.length),
        (orders ((w + 1) + k)).Perm
          (List.range (dispatchCount prepare (rest.get ⟨k, hk⟩))) := by
      intro k hk
      have := hord (k + 1) (by simpa using Nat.succ_lt_succ hk)
      simpa [Nat.add_assoc, Nat.add_comm 1 k] using this
    obtain ⟨r1, r2, r3⟩ := process_batch_spec prepare llm (orders w) b completed frt
      clock hord0
    simp only [batchesLoop]
    obtain ⟨h1, h2, h3⟩ := ih (w + 1) _ _ _ _ _ hord'
    refine ⟨?_, ?_, ?_⟩
    · rw [h1, r1, List.flatten_cons, List.map_append, List.append_assoc]
    · rw [h2, r2, List.flatten_cons, countSucc_append]; omega
    · rw [h3, r3, List.flatten_cons, countErr_append]; omega

theorem batchesLoop_frt_some (prepare : Prep) (llm : Llm) (orders : Nat → List Nat) :
    ∀ (chunks : List (List PromptRequest)) (w : Nat) (acc : List PromptResponse)
      (completed failed : Nat) (t clock : Nat),
      (batchesLoop prepare llm orders chunks w acc completed failed (some t)
        clock).first_result_time = some t := by
  intro chunks
  induction chunks with
  | nil => intro w acc completed failed t clock; rfl
  | cons b rest ih =>
    intro w acc completed failed t clock
    simp only [batchesLoop, Option.isNone_some, Bool.false_and, Bool.false_eq_true,
      if_false]
    exact ih _ _ _ _ _ _

theorem batchesLoop_frt_iff (prepare : Prep) (llm : Llm) (orders : Nat → List Nat) :
    ∀ (chunks : List (List PromptRequest)) (w : Nat) (acc : List PromptResponse)
      (completed failed : Nat) (frt : Option Nat) (clock : Nat),
      (∀ k (hk : k < chunks.length),
        (orders (w + k)).Perm
          (List.range (dispatchCount prepare (chunks.get ⟨k, hk⟩)))) →
      (frt = none ↔ completed = 0) →
      ((batchesLoop prepare llm orders chunks w acc completed failed frt
          clock).first_result_time.isSome = true
        ↔ 0 < completed + countSucc prepare llm chunks.flatten) := by
  intro chunks
  induction chunks with
  | nil =>
    intro w acc completed failed frt clock _ hinv
    show frt.isSome = true ↔ 0 < completed + countSucc prepare llm [].flatten
    simp only [List.flatten_nil, countSucc_nil, Nat.add_zero]
    cases frt with
    | none =>
      simp only [Option.isSome_none, Bool.false_eq_true, false_iff]
      have := hinv.mp rfl
      omega
    | some t =>
      simp only [Option.isSome_some, true_iff]
      have : ¬ completed = 0 := fun h => by
        have := hinv.mpr h
        simp at this
      omega
  | cons b rest ih =>
    intro w acc completed failed frt clock hord hinv
    have hord0 : (orders w).Perm (List.range (dispatchCount prepare b)) := by
      have := hord 0 (by simp)
      simpa using this
    have hord' : ∀ k (hk : k < rest.length),
        (orders ((w + 1) + k)).Perm
          (List.range (dispatchCount prepare (rest.get ⟨k, hk⟩))) := by
      intro k hk
      have := hord (k + 1) (by simpa using Nat.succ_lt_succ hk)
      simpa [Nat.add_assoc, Nat.add_comm 1 k] using this
    simp only [batchesLoop]
    by_cases hc : completed = 0
    · have hfrt : frt = none := hinv.mpr hc
      subst hfrt
      subst hc
      obtain ⟨-, r2, -⟩ := process_batch_spec prepare llm (orders w) b 0 none
        clock hord0
      have hout : (process_batch prepare llm (orders w) b 0 none
          clock).first_result_time.isSome = hasSucc prepare llm b := by
        simpa using process_batch_frt_isSome prepare llm (orders w) b none clock hord0
      cases hsucc : hasSucc prepare llm b with
      | true =>
        have hpos : 0 < countSucc prepare llm b := (hasSucc_pos prepare llm b).mp hsucc
        rw [hsucc] at hout
        obtain ⟨t', ht'⟩ := Option.isSome_iff_exists.mp hout
        simp only [Option.isNone_none, Bool.true_and, ht', Option.isSome_some,
          eq_self_iff_true, if_true]
        rw [batchesLoop_frt_some]
        simp only [Option.isSome_some, true_iff, List.flatten_cons, countSucc_append]
        omega
      | false =>
        rw [hsucc] at hout
        have hnone : (process_batch prepare llm (orders w) b 0 none
            clock).first_result_time = none := by
          cases hfr : (process_batch prepare llm (orders w) b 0 none
              clock).first_result_time with
          | none => rfl
          | some v => rw [hfr] at hout; simp at hout
        have hzero : countSucc prepare llm b = 0 := by
          by_contra hne
          have : hasSucc prepare llm b = true :=
            (hasSucc_pos prepare llm b).mpr (by omega)
          rw [this] at hsucc
          exact absurd hsucc (by simp)
        simp only [hnone, Option.isNone_none, Option.isSome_none, Bool.and_false,
          Bool.false_eq_true, if_false]
        have := ih (w + 1)
          (acc ++ (process_batch prepare llm (orders w) b 0 none clock).responses)
          (0 + (process_batch prepare llm (orders w) b 0 none clock).batch_completed)
          (failed + (process_batch prepare llm (orders w) b 0 none clock).batch_failed)
          none (process_batch prepare llm (orders w) b 0 none clock).clock hord'
          (by rw [r2, hzero]; simp)
        rw [this, r2, List.flatten_cons, countSucc_append]
        omega
    · have hfrt : frt ≠ none := fun h => hc (hinv.mp h)
      obtain ⟨t, ht⟩ := Option.ne_none_iff_exists'.mp hfrt
      subst ht
      rw [process_batch_frt_some prepare llm (orders w) b completed t clock]
      simp only [Option.isNone_some, Bool.false_and, Bool.false_eq_true, if_false]
      rw [batchesLoop_frt_some]
      simp only [Option.isSome_some, true_iff, List.flatten_cons, countSucc_append]
      omega

theorem batchesLoop_mem (prepare : Prep) (llm : Llm) (orders : Nat → List Nat) :
    ∀ (chunks : List (List PromptRequest)) (w : Nat) (acc : List PromptResponse)
      (completed failed : Nat) (frt : Option Nat) (clock : Nat) (r : PromptResponse),
      r ∈ (batchesLoop prepare llm orders chunks w acc completed failed frt
        clock).responses →
      r ∈ acc ∨ outcomeInvariant r := by
  intro chunks
  induction chunks with
  | nil =>
    intro w acc completed failed frt clock r h
    exact Or.inl h
  | cons b rest ih =>
    intro w acc completed failed frt clock r h
    simp only [batchesLoop] at h
    rcases ih _ _ _ _ _ _ r h with hr | hr
    · rcases List.mem_append.mp hr with h' | h'
      · exact Or.inl h'
      · exact Or.inr (process_batch_mem prepare llm (orders w) b completed frt clock
          r h')
    · exact Or.inr hr

theorem valid_orders_get (prepare : Prep) (orders : Nat → List Nat)
    (prompts : List PromptRequest) (batch_size : Nat)
    (hord : ValidOrders prepare orders prompts batch_size) :
    ∀ k (hk : k < (chunkList batch_size prompts).length),
      (orders (0 + k)).Perm
        (List.range (dispatchCount prepare
          ((chunkList batch_size prompts).get ⟨k, hk⟩))) := by
  intro k hk
  have hg : (chunkList batch_size prompts).getD k []
      = (chunkList batch_size prompts).get ⟨k, hk⟩ := by
    rw [List.getD_eq_getElem?_getD, List.getElem?_eq_getElem hk, Option.getD_some,
      List.get_eq_getElem]
  rw [Nat.zero_add, ← hg]
  exact hord k hk

theorem process_multiple_prompts_spec (prepare : Prep) (llm : Llm)
    (orders : Nat → List Nat) (prompts : List PromptRequest) (batch_size clock : Nat)
    (hbs : 1 ≤ batch_size) (hord : ValidOrders prepare orders prompts batch_size) :
    ((process_multiple_prompts prepare llm orders prompts batch_size clock).responses
      = prompts.map (itemOutcome prepare llm))
    ∧ ((process_multiple_prompts prepare llm orders prompts batch_size
        clock).completed = countSucc prepare llm prompts)
    ∧ ((process_multiple_prompts prepare llm orders prompts batch_size
        clock).failed = countErr prepare llm prompts) := by
  obtain ⟨h1, h2, h3⟩ := batchesLoop_spec prepare llm orders
    (chunkList batch_size prompts) 0 [] 0 0 none (clock + 1)
    (valid_orders_get prepare orders prompts batch_size hord)
  rw [chunkList_join batch_size hbs prompts] at h1 h2 h3
  simp only [process_multiple_prompts]
  exact ⟨by rw [h1]; simp, by rw [h2]; simp, by rw [h3]; simp⟩

theorem process_multiple_prompts_frt_iff (prepare : Prep) (llm : Llm)
    (orders : Nat → List Nat) (prompts : List PromptRequest) (batch_size clock : Nat)
    (hbs : 1 ≤ batch_size) (hord : ValidOrders prepare orders prompts batch_size) :
    ((process_multiple_prompts prepare llm orders prompts batch_size
        clock).first_result_time.isSome = true
      ↔ 0 < countSucc prepare llm prompts) := by
  have := batchesLoop_frt_iff prepare llm orders (chunkList batch_size prompts) 0 []
    0 0 none (clock + 1)
    (valid_orders_get prepare orders prompts batch_size hord) (by simp)
  rw [chunkList_join batch_size hbs prompts] at this
  simp only [process_multiple_prompts]
  simpa using this

theorem process_multiple_prompts_mem (prepare : Prep) (llm : Llm)
    (orders : Nat → List Nat) (prompts : List PromptRequest) (batch_size clock : Nat)
    (r : PromptResponse)
    (h : r ∈ (process_multiple_prompts prepare llm orders prompts batch_size
      clock).responses) : outcomeInvariant r := by
  simp only [process_multiple_prompts] at h
  rcases batchesLoop_mem prepare llm orders _ _ _ _ _ _ _ r h with hr | hr
  · simp at hr
  · exact hr

theorem prepare_prompt_request_prompt (pr : PromptRequest) :
    (prepare_prompt_request pr).1 = pr.prompt := rfl

theorem prepare_prompt_response_no_extract (raw : RawOutput) (hs : Bool) :
    (prepare_prompt_response raw none hs).status = "success" := by
  unfold prepare_prompt_response
  cases hd : (format_response_data raw).isDict <;> simp [hd, strOptTruthy]

theorem walkParts_fail :
    ∀ (parts : List String) (i : Nat) (current : Json) (done : List String),
      i < parts.length →
      (resolve current (parts.take i)).isSome = true →
      resolve current (parts.take (i + 1)) = none →
      walkParts current done parts
        = .error ("Field not found: "
            ++ String.intercalate "." (done ++ parts.take (i + 1))) := by
  intro parts
  induction parts with
  | nil => intro i current done hi; exact absurd hi (by simp)
  | cons p rest ih =>
    intro i current done hi hres hfail
    cases i with
    | zero =>
      simp only [List.take_succ_cons, List.take_zero] at hfail ⊢
      cases current with
      | obj fields =>
        cases hlk : lookupKey fields p with
        | some v =>
          exfalso
          simp [resolve, hlk] at hfail
        | none =>
          simp [walkParts, hlk]
      | null => simp [walkParts]
      | str s => simp [walkParts]
      | int n => simp [walkParts]
      | float q => simp [walkParts]
      | bool b => simp [walkParts]
      | arr items => simp [walkParts]
    | succ n =>
      simp only [List.take_succ_cons] at hres hfail
      cases current with
      | obj fields =>
        cases hlk : lookupKey fields p with
        | some v =>
          simp only [resolve, hlk] at hres hfail
          have := ih n v (done ++ [p]) (by simpa using Nat.lt_of_succ_lt_succ hi)
            hres hfail
          simp only [walkParts, hlk, this, List.take_succ_cons]
          rw [List.append_assoc]
          rfl
        | none =>
          exfalso
          simp [resolve, hlk] at hres
      | null => exfalso; simp [resolve] at hres
      | str s => exfalso; simp [resolve] at hres
      | int n' => exfalso; simp [resolve] at hres
      | float q => exfalso; simp [resolve] at hres
      | bool b => exfalso; simp [resolve] at hres
      | arr items => exfalso; simp [resolve] at hres

/-! ## Claim theorems -/

/-- C1 — Order preservation: for every list of prompt requests, every window
size ≥ 1 and every completion order of the concurrently dispatched LLM calls
(any permutation of each window's dispatched task indices),
`process_multiple_prompts` returns the outcome list whose `i`-th entry is the
outcome of the `i`-th input request (`itemOutcome`, the per-request semantics
independent of scheduling): reconciliation re-associates results by original
index, not completion time. -/
theorem c1_order_preservation (prepare : Prep) (llm : Llm) (orders : Nat → List Nat)
    (prompts : List PromptRequest) (batch_size clock : Nat)
    (hbs : 1 ≤ batch_size) (hord : ValidOrders prepare orders prompts batch_size) :
    ((process_multiple_prompts prepare llm orders prompts batch_size clock).responses
        = prompts.map (itemOutcome prepare llm))
      ∧ (process_multiple_prompts prepare llm orders prompts batch_size
          clock).responses.length = prompts.length
      ∧ ∀ i, i < prompts.length →
          (process_multiple_prompts prepare llm orders prompts batch_size
            clock).responses.getD i ⟨"", .null, none⟩
            = itemOutcome prepare llm (prompts.getD i ⟨"", none, none⟩) := by
  obtain ⟨h1, -, -⟩ := process_multiple_prompts_spec prepare llm orders prompts
    batch_size clock hbs hord
  refine ⟨h1, by rw [h1]; simp, ?_⟩
  intro i hi
  rw [h1, List.getD_eq_getElem?_getD,
    List.getElem?_eq_getElem (by simpa using hi), Option.getD_some, List.getElem_map,
    List.getD_eq_getElem?_getD, List.getElem?_eq_getElem hi, Option.getD_some]

/-- Witness for C1 at a concrete input: two prompts in one window of size 2,
completed in reverse order `[1, 0]`. -/
theorem c1_order_preservation_witness :
    (process_multiple_prompts (fun pr => .ok (prepare_prompt_request pr))
        (fun p _ => .ok (.plain (.str p))) (fun w => if w = 0 then [1, 0] else [])
        [⟨"a", none, none⟩, ⟨"b", none, none⟩] 2 0).responses
      = [(⟨"a", none, none⟩ : PromptRequest), ⟨"b", none, none⟩].map
          (itemOutcome (fun pr => .ok (prepare_prompt_request pr))
            (fun p _ => .ok (.plain (.str p)))) :=
  (c1_order_preservation (fun pr => .ok (prepare_prompt_request pr))
    (fun p _ => .ok (.plain (.str p))) (fun w => if w = 0 then [1, 0] else [])
    [⟨"a", none, none⟩, ⟨"b", none, none⟩] 2 0 (by omega)
    (by
      intro w hw
      have hl : (chunkList 2 [(⟨"a", none, none⟩ : PromptRequest),
          ⟨"b", none, none⟩]).length = 1 := rfl
      rw [hl] at hw
      have hw0 : w = 0 := by omega
      subst hw0
      simp only [if_pos rfl]
      have hd : dispatchCount (fun pr => .ok (prepare_prompt_request pr))
          ((chunkList 2 [(⟨"a", none, none⟩ : PromptRequest),
            ⟨"b", none, none⟩]).getD 0 []) = 2 := rfl
      rw [hd]
      decide)).1

/-- C3 — Windowing transparency: for a fixed input list and any two window
sizes ≥ 1 (with any valid completion schedules and clocks), the final outcome
lists are identical in content and order. -/
theorem c3_windowing_transparency (prepare : Prep) (llm : Llm)
    (ordersA ordersB : Nat → List Nat) (prompts : List PromptRequest)
    (bsA bsB cA cB : Nat) (hbsA : 1 ≤ bsA) (hbsB : 1 ≤ bsB)
    (hordA : ValidOrders prepare ordersA prompts bsA)
    (hordB : ValidOrders prepare ordersB prompts bsB) :
    (process_multiple_prompts prepare llm ordersA prompts bsA cA).responses
      = (process_multiple_prompts prepare llm ordersB prompts bsB cB).responses := by
  rw [(process_multiple_prompts_spec prepare llm ordersA prompts bsA cA hbsA hordA).1,
    (process_multiple_prompts_spec prepare llm ordersB prompts bsB cB hbsB hordB).1]

/-- Witness for C3 at a concrete input: window sizes 1 and 2 over two
prompts. -/
theorem c3_windowing_transparency_witness :
    (process_multiple_prompts (fun pr => .ok (prepare_prompt_request pr))
        (fun p _ => .ok (.plain (.str p))) (fun _ => [0])
        [⟨"a", none, none⟩, ⟨"b", none, none⟩] 1 0).responses
      = (process_multiple_prompts (fun pr => .ok (prepare_prompt_request pr))
          (fun p _ => .ok (.plain (.str p))) (fun w => if w = 0 then [1, 0] else [])
          [⟨"a", none, none⟩, ⟨"b", none, none⟩] 2 7).responses :=
  c3_windowing_transparency (fun pr => .ok (prepare_prompt_request pr))
    (fun p _ => .ok (.plain (.str p))) (fun _ => [0])
    (fun w => if w = 0 then [1, 0] else [])
    [⟨"a", none, none⟩, ⟨"b", none, none⟩] 1 2 0 7 (by omega) (by omega)
    (by
      intro w hw
      have hl : (chunkList 1 [(⟨"a", none, none⟩ : PromptRequest),
          ⟨"b", none, none⟩]).length = 2 := rfl
      rw [hl] at hw
      match w, hw with
      | 0, _ =>
        have hd : dispatchCount (fun pr => .ok (prepare_prompt_request pr))
            ((chunkList 1 [(⟨"a", none, none⟩ : PromptRequest),
              ⟨"b", none, none⟩]).getD 0 []) = 1 := rfl
        rw [hd]
        decide
      | 1, _ =>
        have hd : dispatchCount (fun pr => .ok (prepare_prompt_request pr))
            ((chunkList 1 [(⟨"a", none, none⟩ : PromptRequest),
              ⟨"b", none, none⟩]).getD 1 []) = 1 := rfl
        rw [hd]
        decide)
    (by
      intro w hw
      have hl : (chunkList 2 [(⟨"a", none, none⟩ : PromptRequest),
          ⟨"b", none, none⟩]).length = 1 := rfl
      rw [hl] at hw
      have hw0 : w = 0 := by omega
      subst hw0
      simp only [if_pos rfl]
      have hd : dispatchCount (fun pr => .ok (prepare_prompt_request pr))
          ((chunkList 2 [(⟨"a", none, none⟩ : PromptRequest),
            ⟨"b", none, none⟩]).getD 0 []) = 2 := rfl
      rw [hd]
      decide)

/-- C5 — First-success timing: (1) once set, the first-result timestamp is
never changed by any later window; (2) a window entered with the global
success counter already positive (and no recorded timestamp — an unreachable
combination kept for completeness) records nothing, so the timestamp can only
be recorded at the global 0 → 1 transition of the success counter; (3) over a
whole run the timestamp is recorded iff some outcome is a success.  It is
global to the run: `process_multiple_prompts` threads one timestamp through
all windows. -/
theorem c5_first_success_timing :
    (∀ (prepare : Prep) (llm : Llm) (order : List Nat) (batch : List PromptRequest)
        (completed t clock : Nat),
      (process_batch prepare llm order batch completed (some t)
        clock).first_result_time = some t)
    ∧ (∀ (prepare : Prep) (llm : Llm) (order : List Nat)
        (batch : List PromptRequest) (completed clock : Nat), 1 ≤ completed →
      (process_batch prepare llm order batch completed none
        clock).first_result_time = none)
    ∧ (∀ (prepare : Prep) (llm : Llm) (orders : Nat → List Nat)
        (prompts : List PromptRequest) (batch_size clock : Nat),
      1 ≤ batch_size → ValidOrders prepare orders prompts batch_size →
      ((process_multiple_prompts prepare llm orders prompts batch_size
          clock).first_result_time.isSome = true
        ↔ ∃ r ∈ (process_multiple_prompts prepare llm orders prompts batch_size
            clock).responses, r.status ≠ "error")) := by
  refine ⟨?_, ?_, ?_⟩
  · intro prepare llm order batch completed t clock
    exact process_batch_frt_some prepare llm order batch completed t clock
  · intro prepare llm order batch completed clock hc
    exact process_batch_frt_none_pos prepare llm order batch completed hc clock
  · intro prepare llm orders prompts batch_size clock hbs hord
    obtain ⟨h1, -, -⟩ := process_multiple_prompts_spec prepare llm orders prompts
      batch_size clock hbs hord
    rw [process_multiple_prompts_frt_iff prepare llm orders prompts batch_size clock
      hbs hord, h1]
    unfold countSucc
    rw [List.countP_pos_iff]
    constructor
    · rintro ⟨r, hr, hp⟩
      exact ⟨r, hr, by simpa using hp⟩
    · rintro ⟨r, hr, hp⟩
      exact ⟨r, hr, by simpa using hp⟩

/-- Witness for C5 at concrete inputs: a window keeps an already-set
timestamp, a window with `completed = 1` records nothing, and a one-success
run records a timestamp. -/
theorem c5_first_success_timing_witness :
    ((process_batch (fun pr => .ok (prepare_prompt_request pr))
        (fun p _ => .ok (.plain (.str p))) [0] [⟨"a", none, none⟩] 3 (some 42)
        0).first_result_time = some 42)
    ∧ ((process_batch (fun pr => .ok (prepare_prompt_request pr))
        (fun p _ => .ok (.plain (.str p))) [0] [⟨"a", none, none⟩] 1 none
        0).first_result_time = none)
    ∧ ((process_multiple_prompts (fun pr => .ok (prepare_prompt_request pr))
        (fun p _ => .ok (.plain (.str p))) (fun _ => [0]) [⟨"a", none, none⟩] 1
        0).first_result_time.isSome = true
      ↔ ∃ r ∈ (process_multiple_prompts (fun pr => .ok (prepare_prompt_request pr))
          (fun p _ => .ok (.plain (.str p))) (fun _ => [0]) [⟨"a", none, none⟩] 1
          0).responses, r.status ≠ "error") :=
  ⟨c5_first_success_timing.1 _ _ _ _ _ _ _,
   c5_first_success_timing.2.1 _ _ _ _ _ _ (by omega),
   c5_first_success_timing.2.2 (fun pr => .ok (prepare_prompt_request pr))
     (fun p _ => .ok (.plain (.str p))) (fun _ => [0]) [⟨"a", none, none⟩] 1 0
     (by omega)
     (by
       intro w hw
       have hl : (chunkList 1 [(⟨"a", none, none⟩ : PromptRequest)]).length = 1 := rfl
       rw [hl] at hw
       have hw0 : w = 0 := by omega
       subst hw0
       have hd : dispatchCount (fun pr => .ok (prepare_prompt_request pr))
           ((chunkList 1 [(⟨"a", none, none⟩ : PromptRequest)]).getD 0 []) = 1 := rfl
       rw [hd]
       decide)⟩

/-- C2 counterexample: a one-item batch whose LLM caller is the constant
`.ok (.plain (.str "hello"))` — it raises for NO item (the raising set is
empty) — still yields `status = "error"` at position 0, because the item
requests field extraction without a schema.  So the outcome list does not
have status `"success"` at every non-raising position, refuting the claim as
stated. -/
theorem c2_partial_failure_counterexample :
    (process_multiple_prompts (fun pr => .ok (prepare_prompt_request pr))
        (fun _ _ => .ok (.plain (.str "hello"))) (fun _ => [0])
        [⟨"p", none, some "x"⟩] 1 0).responses
      = [⟨"error", .null, some "Field extraction requires a schema"⟩] := rfl

theorem itemOutcome_status_concrete (llm : Llm) (pr : PromptRequest)
    (hne : pr.extract_field_path = none) :
    (itemOutcome (fun r => .ok (prepare_prompt_request r)) llm pr).status
      = (match llm pr.prompt (prepare_prompt_request pr).2.1 with
         | .ok _ => "success"
         | .error _ => "error") := by
  rcases hp : prepare_prompt_request pr with ⟨pt, m, hs⟩
  have hpt : pt = pr.prompt := by
    rw [← prepare_prompt_request_prompt pr, hp]
  unfold itemOutcome
  simp only [hp, ← hpt]
  cases hl : llm pt m with
  | error e => simp [hl]
  | ok raw =>
    simp only [hl, hne]
    exact prepare_prompt_response_no_extract raw _

/-- C2 (amended) — Partial-failure isolation: for every batch in which no
item requests field extraction, with the LLM Caller raising for exactly the
items at a given set of input positions and succeeding for all others, the
returned outcome list has status `"error"` at exactly those positions and
`"success"` everywhere else, its length equals the input length, and no
per-item failure aborts the window or the run (the run always returns a
full-length list).  (The original claim, without the no-extraction proviso,
is refuted by `c2_partial_failure_counterexample`: a failed extraction makes
an error outcome at a position where the LLM call succeeded.) -/
theorem c2_partial_failure_isolation (llm : Llm) (orders : Nat → List Nat)
    (prompts : List PromptRequest) (batch_size clock : Nat) (hbs : 1 ≤ batch_size)
    (hord : ValidOrders (fun pr => .ok (prepare_prompt_request pr)) orders prompts
      batch_size)
    (hnoext : ∀ pr ∈ prompts, pr.extract_field_path = none) :
    ((process_multiple_prompts (fun pr => .ok (prepare_prompt_request pr)) llm
        orders prompts batch_size clock).responses.length = prompts.length)
    ∧ ∀ i, i < prompts.length →
        ((process_multiple_prompts (fun pr => .ok (prepare_prompt_request pr)) llm
          orders prompts batch_size clock).responses.getD i ⟨"", .null, none⟩).status
        = (match llm (prompts.getD i ⟨"", none, none⟩).prompt
              (prepare_prompt_request (prompts.getD i ⟨"", none, none⟩)).2.1 with
           | .ok _ => "success"
           | .error _ => "error") := by
  obtain ⟨h1, h2, h3⟩ := c1_order_preservation (fun pr => .ok (prepare_prompt_request pr))
    llm orders prompts batch_size clock hbs hord
  refine ⟨h2, ?_⟩
  intro i hi
  rw [h3 i hi]
  apply itemOutcome_status_concrete
  apply hnoext
  rw [List.getD_eq_getElem?_getD, List.getElem?_eq_getElem hi, Option.getD_some]
  exact List.getElem_mem hi

/-- Witness for C2 (amended) at a concrete input: two items, the second one's
prompt makes the LLM raise. -/
theorem c2_partial_failure_isolation_witness :
    ((process_multiple_prompts (fun pr => .ok (prepare_prompt_request pr))
        (fun p _ => if p == "bad" then .error "boom" else .ok (.plain (.str p)))
        (fun w => if w = 0 then [1, 0] else [])
        [⟨"a", none, none⟩, ⟨"bad", none, none⟩] 2 0).responses.length = 2)
    ∧ ∀ i, i < ([(⟨"a", none, none⟩ : PromptRequest), ⟨"bad", none, none⟩]).length →
        ((process_multiple_prompts (fun pr => .ok (prepare_prompt_request pr))
          (fun p _ => if p == "bad" then .error "boom" else .ok (.plain (.str p)))
          (fun w => if w = 0 then [1, 0] else [])
          [⟨"a", none, none⟩, ⟨"bad", none, none⟩] 2 0).responses.getD i
            ⟨"", .null, none⟩).status
        = (match (fun p (_ : Option DynModel) =>
              if p == "bad" then Except.error "boom"
              else Except.ok (RawOutput.plain (.str p)))
            (([(⟨"a", none, none⟩ : PromptRequest),
                ⟨"bad", none, none⟩]).getD i ⟨"", none, none⟩).prompt
            (prepare_prompt_request (([(⟨"a", none, none⟩ : PromptRequest),
                ⟨"bad", none, none⟩]).getD i ⟨"", none, none⟩)).2.1 with
           | .ok _ => "success"
           | .error _ => "error") :=
  c2_partial_failure_isolation
    (fun p _ => if p == "bad" then .error "boom" else .ok (.plain (.str p)))
    (fun w => if w = 0 then [1, 0] else [])
    [⟨"a", none, none⟩, ⟨"bad", none, none⟩] 2 0 (by omega)
    (by
      intro w hw
      have hl : (chunkList 2 [(⟨"a", none, none⟩ : PromptRequest),
          ⟨"bad", none, none⟩]).length = 1 := rfl
      rw [hl] at hw
      have hw0 : w = 0 := by omega
      subst hw0
      simp only [if_pos rfl]
      have hd : dispatchCount (fun pr => .ok (prepare_prompt_request pr))
          ((chunkList 2 [(⟨"a", none, none⟩ : PromptRequest),
            ⟨"bad", none, none⟩]).getD 0 []) = 2 := rfl
      rw [hd]
      decide)
    (by intro pr hpr; fin_cases hpr <;> rfl)

/-- C4 — Outcome record invariant: every `PromptResponse` produced by the
pipeline — by the Response Preparer, the single-prompt route, any window of
the batch path, or a whole run — has `error` non-null iff
`status = "error"`, and a null `response` whenever `status = "error"`. -/
theorem c4_outcome_invariant :
    (∀ (rd : RawOutput) (p : Option String) (hs : Bool),
      outcomeInvariant (prepare_prompt_response rd p hs))
    ∧ (∀ (llm : Llm) (pr : PromptRequest),
      outcomeInvariant (process_single_prompt llm pr))
    ∧ (∀ (prepare : Prep) (llm : Llm) (order : List Nat)
        (batch : List PromptRequest) (completed : Nat) (frt : Option Nat)
        (clock : Nat) (r : PromptResponse),
      r ∈ (process_batch prepare llm order batch completed frt clock).responses →
      outcomeInvariant r)
    ∧ (∀ (prepare : Prep) (llm : Llm) (orders : Nat → List Nat)
        (prompts : List PromptRequest) (batch_size clock : Nat)
        (r : PromptResponse),
      r ∈ (process_multiple_prompts prepare llm orders prompts batch_size
        clock).responses →
      outcomeInvariant r) := by
  refine ⟨prepare_prompt_response_invariant, ?_, ?_, ?_⟩
  · intro llm pr
    unfold process_single_prompt
    cases hl : llm (prepare_prompt_request pr).1 (prepare_prompt_request pr).2.1 with
    | error e =>
      simp only [hl]
      exact ⟨by simp, by simp⟩
    | ok rd =>
      simp only [hl]
      exact prepare_prompt_response_invariant _ _ _
  · intro prepare llm order batch completed frt clock r h
    exact process_batch_mem prepare llm order batch completed frt clock r h
  · intro prepare llm orders prompts batch_size clock r h
    exact process_multiple_prompts_mem prepare llm orders prompts batch_size clock
      r h

/-- Witness for C4: the invariant for an outcome that a concrete batch run
actually produced. -/
theorem c4_outcome_invariant_witness :
    outcomeInvariant (⟨"success", .str "a", none⟩ : PromptResponse) :=
  c4_outcome_invariant.2.2.1 (fun pr => .ok (prepare_prompt_request pr))
    (fun p _ => .ok (.plain (.str p))) [0] [⟨"a", none, none⟩] 0 none 0
    ⟨"success", .str "a", none⟩
    (by
      have : (process_batch (fun pr => .ok (prepare_prompt_request pr))
          (fun p _ => .ok (.plain (.str p))) [0] [⟨"a", none, none⟩] 0 none
          0).responses = [⟨"success", .str "a", none⟩] := rfl
      rw [this]
      exact List.mem_singleton.mpr rfl)

/-- C6 — Field extraction round-trip and failing-prefix error: the concrete
round-trip over `{"user": {"address": {"city": "London"}}}`; and in general,
when resolution of a dot-path fails at segment `i` (the first `i` segments
resolve, segment `i` does not), the error message names exactly the failing
prefix `parts[: i + 1]` — for a single-segment path, the whole path. -/
theorem c6_field_extraction :
    (extract_field
        (.obj [("user", .obj [("address", .obj [("city", .str "London")])])])
        "user.address.city" = .ok (.str "London"))
    ∧ (extract_field
        (.obj [("user", .obj [("address", .obj [("city", .str "London")])])])
        "user.address.missing"
        = .error "Field not found: user.address.missing")
    ∧ (∀ (data : Json) (path : String) (i : Nat),
        data.isStructured = true →
        path.isEmpty = false →
        (∀ part ∈ pySplit '.' path, part.isEmpty = false) →
        2 ≤ (pySplit '.' path).length →
        i < (pySplit '.' path).length →
        (resolve data ((pySplit '.' path).take i)).isSome = true →
        resolve data ((pySplit '.' path).take (i + 1)) = none →
        extract_field data path
          = .error ("Field not found: "
              ++ String.intercalate "." ((pySplit '.' path).take (i + 1))))
    ∧ (∀ (data : Json) (path : String),
        data.isStructured = true →
        path.isEmpty = false →
        (∀ part ∈ pySplit '.' path, part.isEmpty = false) →
        (pySplit '.' path).length = 1 →
        resolve data [path] = none →
        extract_field data path = .error ("Field not found: " ++ path)) := by
  refine ⟨rfl, rfl, ?_, ?_⟩
  · intro data path i hstruct hne hparts hlen hi hres hfail
    have hany : (pySplit '.' path).any (fun part => part.isEmpty) = false := by
      rw [List.any_eq_false]
      intro x hx
      simp [hparts x hx]
    have hone : ((pySplit '.' path).length == 1) = false :=
      beq_eq_false_iff_ne.mpr (by omega)
    unfold extract_field
    simp only [hstruct, Bool.not_true, Bool.false_and, Bool.false_eq_true, if_false,
      hne, hany, Bool.or_self, hone]
    have := walkParts_fail (pySplit '.' path) i data [] hi hres hfail
    rw [this]
    simp
  · intro data path hstruct hne hparts hlen hfail
    have hany : (pySplit '.' path).any (fun part => part.isEmpty) = false := by
      rw [List.any_eq_false]
      intro x hx
      simp [hparts x hx]
    have hone : ((pySplit '.' path).length == 1) = true := by
      rw [hlen]; rfl
    unfold extract_field
    simp only [hstruct, Bool.not_true, Bool.false_and, Bool.false_eq_true, if_false,
      hne, hany, Bool.or_self, hone, if_true]
    cases data with
    | obj fields =>
      cases hlk : lookupKey fields path with
      | some v =>
        exfalso
        simp [resolve, hlk] at hfail
      | none => simp [hlk]
    | arr items => rfl
    | null => simp [Json.isStructured] at hstruct
    | str s => simp [Json.isStructured] at hstruct
    | int n => simp [Json.isStructured] at hstruct
    | float q => simp [Json.isStructured] at hstruct
    | bool b => simp [Json.isStructured] at hstruct

/-- Witness for C6 at concrete inputs: the failing-prefix conjunct at
`"user.address.missing"` (fails at segment 2), and the single-segment
conjunct at path `"x"` over `{}`. -/
theorem c6_field_extraction_witness :
    (extract_field
        (.obj [("user", .obj [("address", .obj [("city", .str "London")])])])
        "user.address.missing"
        = .error ("Field not found: "
            ++ String.intercalate "."
              ((pySplit '.' "user.address.missing").take (2 + 1))))
    ∧ extract_field (.obj []) "x" = .error ("Field not found: " ++ "x") :=
  ⟨c6_field_extraction.2.2.1
      (.obj [("user", .obj [("address", .obj [("city", .str "London")])])])
      "user.address.missing" 2 rfl rfl (by decide) (by decide) (by decide)
      (by rfl) (by rfl),
   c6_field_extraction.2.2.2 (.obj []) "x" rfl rfl (by decide) (by decide)
     (by rfl)⟩

/-- C7 counterexample: the normalized value `[.str "x"]` is a sequence; the
claim says sequences are passed to extraction unwrapped, which would make
extraction of `"result"` fail (second conjunct: `extract_field` on the bare
sequence errors) — but `prepare_prompt_response` returns a success carrying
the whole sequence, showing the sequence was wrapped as
`{"result": [...]}` first. -/
theorem c7_wrapping_counterexample :
    (prepare_prompt_response (.plain (.arr [.str "x"])) (some "result") true
        = ⟨"success", .arr [.str "x"], none⟩)
    ∧ (extract_field (.arr [.str "x"]) "result"
        = .error "Field not found: result") :=
  ⟨rfl, rfl⟩

/-- C7 (amended) — wrapping rule: for every raw output and truthy extract
path, the preparer delegates to extraction after wrapping the normalized
value as `{"result": value}` exactly when it is not a mapping — sequences
included; only mappings are passed unwrapped.  (The original claim said
sequences are passed unwrapped; `c7_wrapping_counterexample` refutes that.) -/
theorem c7_wrapping_rule (response_data : RawOutput) (p : String) (hs : Bool)
    (hp : p.isEmpty = false) :
    prepare_prompt_response response_data (some p) hs
      = (match extract_requested_field
            (if (format_response_data response_data).isDict then
              format_response_data response_data
            else .obj [("result", format_response_data response_data)])
            (some p) hs with
         | .ok v => ⟨"success", v, none⟩
         | .error e => ⟨"error", .null, some e⟩) := by
  have htr : strOptTruthy (some p) = true := by simp [strOptTruthy, hp]
  unfold prepare_prompt_response
  cases hd : (format_response_data response_data).isDict <;> simp [hd, htr]

/-- Witness for C7 (amended): a scalar raw output with extract path
`"result"`. -/
theorem c7_wrapping_rule_witness :
    prepare_prompt_response (.plain (.str "hi")) (some "result") true
      = (match extract_requested_field
            (if (format_response_data (.plain (.str "hi"))).isDict then
              format_response_data (.plain (.str "hi"))
            else .obj [("result", format_response_data (.plain (.str "hi")))])
            (some "result") true with
         | .ok v => ⟨"success", v, none⟩
         | .error e => ⟨"error", .null, some e⟩) :=
  c7_wrapping_rule (.plain (.str "hi")) "result" true rfl

/-- C8 — Best-effort integer coercion: a schema field declared with type
`"integer"` is built as the integer field kind, and that field accepts a
float exactly when it is whole (`den = 1`), converting it exactly —
`(q.num : ℚ) = q`, never lossy; e.g. `3.0` is accepted as `3` and `3.5` (`mkRat 7 2`) is
rejected. -/
theorem c8_integer_coercion :
    (∀ field_schema : Json, jsonGet field_schema "type" = some (.str "integer") →
      fieldKindOfSchema field_schema = .int)
    ∧ (∀ q : Rat, q.den = 1 →
        intFieldAccepts (.float q) = some q.num ∧ ((q.num : Rat) = q))
    ∧ (∀ q : Rat, q.den ≠ 1 → intFieldAccepts (.float q) = none)
    ∧ intFieldAccepts (.float (3 : Rat)) = some 3
    ∧ intFieldAccepts (.float (mkRat 7 2)) = none := by
  refine ⟨?_, ?_, ?_, by decide, by decide⟩
  · intro fs h
    unfold fieldKindOfSchema
    rw [h]
    rfl
  · intro q hq
    constructor
    · unfold intFieldAccepts validate_int
      simp [hq]
    · have := Rat.num_div_den q
      rw [hq] at this
      simpa using this
  · intro q hq
    unfold intFieldAccepts validate_int
    simp [hq]

/-- Witness for C8: the whole float `3.0`. -/
theorem c8_integer_coercion_witness :
    intFieldAccepts (.float (3 : Rat)) = some (3 : Rat).num
      ∧ (((3 : Rat).num : Rat) = 3) :=
  c8_integer_coercion.2.1 3 (by decide)

theorem prepare_prompt_request_no_schema_key (p : String)
    (fields : List (String × Json)) (ep : Option String)
    (js : List (String × Json)) (h1 : fields.isEmpty = false)
    (h2 : lookupKey fields "type" = some (.str "json_schema"))
    (h3 : lookupKey fields "json_schema" = some (.obj js))
    (h4 : lookupKey js "schema" = none) :
    prepare_prompt_request ⟨p, some fields, ep⟩ = (p, none, true) := by
  unfold prepare_prompt_request
  simp only [h1, h2, h3, h4, Bool.not_false, Bool.true_and, Option.getD_some,
    jsonHasKey, Option.isSome_none, Bool.and_false, Bool.false_eq_true, if_false]
  rfl

/-- C9 — `has_schema` detection: (1) `has_schema` is determined solely by
`response_format` being a truthy dict whose `"type"` is `"json_schema"`,
independent of the `json_schema` payload; (2) when the nested `json_schema`
object lacks a `"schema"` key, the request is prepared with
`has_schema = true` but no response model; (3) the single-prompt pipeline
then calls the LLM with no response model (plain-text mode) while handing
`has_schema = true` to the Response Preparer; (4) with `has_schema = true`
the field-extraction precondition check never fails on the schema
requirement — only on non-structured data. -/
theorem c9_has_schema_detection :
    (∀ pr : PromptRequest, (prepare_prompt_request pr).2.2
       = (match pr.response_format with
          | none => false
          | some fields => !fields.isEmpty &&
              (match lookupKey fields "type" with
               | some (.str t) => t == "json_schema"
               | _ => false)))
    ∧ (∀ (p : String) (fields : List (String × Json)) (ep : Option String)
        (js : List (String × Json)),
        fields.isEmpty = false →
        lookupKey fields "type" = some (.str "json_schema") →
        lookupKey fields "json_schema" = some (.obj js) →
        lookupKey js "schema" = none →
        prepare_prompt_request ⟨p, some fields, ep⟩ = (p, none, true))
    ∧ (∀ (llm : Llm) (p : String) (fields : List (String × Json))
        (ep : Option String) (js : List (String × Json)),
        fields.isEmpty = false →
        lookupKey fields "type" = some (.str "json_schema") →
        lookupKey fields "json_schema" = some (.obj js) →
        lookupKey js "schema" = none →
        process_single_prompt llm ⟨p, some fields, ep⟩
          = (match llm p none with
             | .error e => ⟨"error", .null, some e⟩
             | .ok rd => prepare_prompt_response rd ep true))
    ∧ (∀ (d : Json) (fp : String),
        validate_field_extraction_request d fp true
          = (if d.isStructured then .ok ()
             else .error ("Cannot extract fields from non-structured data: "
               ++ d.pyTypeName))) := by
  refine ⟨?_, prepare_prompt_request_no_schema_key, ?_, ?_⟩
  · intro pr
    cases hrf : pr.response_format with
    | none => simp [prepare_prompt_request, hrf]
    | some fields =>
      unfold prepare_prompt_request
      rw [hrf]
      cases hcond : (!fields.isEmpty &&
          (match lookupKey fields "type" with
           | some (.str t) => t == "json_schema"
           | _ => false)) with
      | false => simp [hcond]
      | true =>
        simp only [hcond, if_true]
        cases hjs : (((lookupKey fields "json_schema").getD (.obj [])).truthy
            && jsonHasKey ((lookupKey fields "json_schema").getD (.obj []))
              "schema") with
        | false => simp [hjs]
        | true => simp [hjs]
  · intro llm p fields ep js h1 h2 h3 h4
    unfold process_single_prompt
    rw [prepare_prompt_request_no_schema_key p fields ep js h1 h2 h3 h4]
  · intro d fp
    unfold validate_field_extraction_request
    cases hd : d.isStructured with
    | true => simp [hd]
    | false => simp [hd]

/-- Witness for C9 at a concrete request whose `json_schema` object has a
`"name"` but no `"schema"` key. -/
theorem c9_has_schema_detection_witness :
    (prepare_prompt_request
        ⟨"p", some [("type", .str "json_schema"),
          ("json_schema", .obj [("name", .str "S")])], none⟩
      = ("p", none, true))
    ∧ (process_single_prompt (fun _ _ => .ok (.plain (.str "t")))
        ⟨"p", some [("type", .str "json_schema"),
          ("json_schema", .obj [("name", .str "S")])], none⟩
      = (match (fun (_ : String) (_ : Option DynModel) =>
            Except.ok (RawOutput.plain (.str "t"))) "p" none with
         | .error e => ⟨"error", .null, some e⟩
         | .ok rd => prepare_prompt_response rd none true))
    ∧ (validate_field_extraction_request (.str "bare") "f" true
      = (if (Json.str "bare").isStructured then .ok ()
         else .error ("Cannot extract fields from non-structured data: "
           ++ (Json.str "bare").pyTypeName))) :=
  ⟨c9_has_schema_detection.2.1 "p" _ none [("name", .str "S")] rfl rfl rfl rfl,
   c9_has_schema_detection.2.2.1 (fun _ _ => .ok (.plain (.str "t"))) "p" _ none
     [("name", .str "S")] rfl rfl rfl rfl,
   c9_has_schema_detection.2.2.2 (.str "bare") "f"⟩

/-- C10 — Extraction over a sequence can never succeed: a list passes the
structured-data precondition check, but every call of `extract_field` on a
list returns an error — either the invalid-path error or a field-not-found
error (path resolution performs mapping-key lookup only). -/
theorem c10_sequence_extraction_always_fails (items : List Json) (path : String) :
    validate_field_extraction_request (.arr items) path true = .ok ()
    ∧ ∃ e, extract_field (.arr items) path = .error e
        ∧ (e = "Invalid field path format"
           ∨ ∃ tail, e = "Field not found: " ++ tail) := by
  constructor
  · rfl
  · unfold extract_field
    have hstruct : (Json.arr items).isStructured = true := rfl
    simp only [hstruct, Bool.not_true, Bool.false_and, Bool.false_eq_true, if_false]
    cases hguard : (path.isEmpty || (pySplit '.' path).any (fun part => part.isEmpty)) with
    | true =>
      refine ⟨"Invalid field path format", ?_, Or.inl rfl⟩
      simp only [hguard, if_true]
    | false =>
      cases hlen : ((pySplit '.' path).length == 1) with
      | true =>
        refine ⟨"Field not found: " ++ path, ?_, Or.inr ⟨path, rfl⟩⟩
        simp only [hguard, Bool.false_eq_true, if_false, hlen, if_true]
      | false =>
        cases hps : pySplit '.' path with
        | nil => exact absurd hps (pySplit_ne_nil '.' path)
        | cons pHead pTail =>
          refine ⟨"Field not found: "
            ++ String.intercalate "." ([] ++ [pHead]), ?_,
            Or.inr ⟨String.intercalate "." ([] ++ [pHead]), rfl⟩⟩
          simp only [hguard, Bool.false_eq_true, if_false, hlen, hps]
          rfl

end HumbleClay
